import Mathlib

/-!
# Verification of the oksvg geometric core against its specification

This file gives a shallow embedding in Lean 4 of the parts of the oksvg
repository that the specification claims talk about:

* `matrix.go` — the affine 2-D matrix type `Matrix2D` (embedded over `ℝ`,
  since the skew/rotate constructors use `math.Tan` / `math.Sin` / `math.Cos`);
* `svgp.go` — the path compiler `PathCursor` (`GetPoints`, `addSeg`,
  `CompilePath`, `FindEllipseCenter`), embedded over `ℚ` for the exact parts
  and over `ℝ` for the arc-center geometry which uses `math.Sqrt`;
* the gradient sampler (`Gradient.tColor`, `Gradient.blendStops`,
  `Gradient.GetColorFunction`) and `ApplyOpacity` from `svgd.go`, embedded
  over `ℚ`.

Go `float64` values are modelled as exact rationals (`ℚ`) wherever the code
only uses field operations and comparisons, and as reals (`ℝ`) where the code
calls transcendental functions.  Machine conversions (`uint8(..)`,
`fixed.Int26_6(..)`) are modelled explicitly as truncation toward zero.
-/

namespace Oksvg

/-! ## Matrix2D (matrix.go)

`Matrix2D` holds six float64 scalars; `Transform` applies the convention
x' = a·x + c·y + e, y' = b·x + d·y + f.  We embed the fields as reals. -/

structure Matrix2D where
  A : ℝ
  B : ℝ
  C : ℝ
  D : ℝ
  E : ℝ
  F : ℝ

namespace Matrix2D

/-- `func (a Matrix2D) Mult(b Matrix2D) Matrix2D` from matrix.go. -/
def Mult (a b : Matrix2D) : Matrix2D :=
  { A := a.A * b.A + a.C * b.B
    B := a.B * b.A + a.D * b.B
    C := a.A * b.C + a.C * b.D
    D := a.B * b.C + a.D * b.D
    E := a.A * b.E + a.C * b.F + a.E
    F := a.B * b.E + a.D * b.F + a.F }

/-- `var Identity = Matrix2D{1, 0, 0, 1, 0, 0}` from matrix.go. -/
def Identity : Matrix2D := ⟨1, 0, 0, 1, 0, 0⟩

/-- `func (m Matrix2D) Transform(x1, y1 float64) (x2, y2 float64)`. -/
def Transform (m : Matrix2D) (x y : ℝ) : ℝ × ℝ :=
  (x * m.A + y * m.C + m.E, x * m.B + y * m.D + m.F)

/-- `func (a Matrix2D) Scale(x, y float64) Matrix2D`. -/
def Scale (a : Matrix2D) (x y : ℝ) : Matrix2D :=
  a.Mult { A := x, B := 0, C := 0, D := y, E := 0, F := 0 }

/-- `func (a Matrix2D) SkewY(theta float64) Matrix2D`. -/
noncomputable def SkewY (a : Matrix2D) (theta : ℝ) : Matrix2D :=
  a.Mult { A := 1, B := Real.tan theta, C := 0, D := 1, E := 0, F := 0 }

/-- `func (a Matrix2D) SkewX(theta float64) Matrix2D`. -/
noncomputable def SkewX (a : Matrix2D) (theta : ℝ) : Matrix2D :=
  a.Mult { A := 1, B := 0, C := Real.tan theta, D := 1, E := 0, F := 0 }

/-- `func (a Matrix2D) Translate(x, y float64) Matrix2D`.
Note: the Go code does NOT call `Mult`; it adds `x`, `y` directly to the
`E`, `F` entries. -/
def Translate (a : Matrix2D) (x y : ℝ) : Matrix2D :=
  { A := a.A, B := a.B, C := a.C, D := a.D, E := a.E + x, F := a.F + y }

/-- `func (a Matrix2D) Rotate(theta float64) Matrix2D`. -/
noncomputable def Rotate (a : Matrix2D) (theta : ℝ) : Matrix2D :=
  a.Mult { A := Real.cos theta, B := Real.sin theta,
           C := -Real.sin theta, D := Real.cos theta, E := 0, F := 0 }

end Matrix2D

/-- The primitive translation matrix of the spec: the matrix `P` such that
`P.Transform (x, y) = (x + dx, y + dy)`. -/
def translationMatrix (dx dy : ℝ) : Matrix2D :=
  { A := 1, B := 0, C := 0, D := 1, E := dx, F := dy }

/-- The primitive scale matrix used inside `Matrix2D.Scale`. -/
def scaleMatrix (sx sy : ℝ) : Matrix2D :=
  { A := sx, B := 0, C := 0, D := sy, E := 0, F := 0 }

/-- The primitive rotation matrix used inside `Matrix2D.Rotate`. -/
noncomputable def rotationMatrix (theta : ℝ) : Matrix2D :=
  { A := Real.cos theta, B := Real.sin theta,
    C := -Real.sin theta, D := Real.cos theta, E := 0, F := 0 }

/-- The primitive x-skew matrix used inside `Matrix2D.SkewX`. -/
noncomputable def skewXMatrix (theta : ℝ) : Matrix2D :=
  { A := 1, B := 0, C := Real.tan theta, D := 1, E := 0, F := 0 }

/-- The primitive y-skew matrix used inside `Matrix2D.SkewY`. -/
noncomputable def skewYMatrix (theta : ℝ) : Matrix2D :=
  { A := 1, B := Real.tan theta, C := 0, D := 1, E := 0, F := 0 }

/-! ## Machine number conversions

Go converts floats to integer types by truncation toward zero.  We model
`float64` as `ℚ`, so truncation toward zero is `num / den` with Lean's
T-division on `ℤ`. -/

/-- Truncation of a rational toward zero (`⌊q⌋` for `q ≥ 0`, `-⌊-q⌋`
otherwise), modelling Go's float→int conversion (`int32(x)`, `uint8(x)` for
in-range values). -/
def ratTrunc (q : ℚ) : ℤ := if q < 0 then -⌊-q⌋ else ⌊q⌋

/-- Go's `math.Mod(t, m)`: the floating-point remainder with the sign of `t`,
i.e. `t - trunc(t/m)*m`. -/
def goMod (t m : ℚ) : ℚ := t - (ratTrunc (t / m) : ℚ) * m

/-- Go's `uint8(x)` applied to a float64 `x`: truncate toward zero
(then reduce mod 256; for the in-range values arising here the reduction
is the identity). -/
def goUint8F (q : ℚ) : ℕ := (ratTrunc q % 256).toNat

/-! ## Colors (image/color and svgd.go)

A Go `color.Color` is an interface with a single method
`RGBA() (r, g, b, a uint32)` returning 16-bit channels in `0..0xFFFF`
(alpha-premultiplied).  We model a color by those four channel values. -/

/-- A `color.Color` value, represented by the four 16-bit channels its
`RGBA()` method returns. -/
structure Color16 where
  r : ℕ
  g : ℕ
  b : ℕ
  a : ℕ
deriving DecidableEq, Repr

/-- An 8-bit-per-channel non-premultiplied color, modelling Go's
`color.NRGBA`. -/
structure NRGBA where
  r : ℕ
  g : ℕ
  b : ℕ
  a : ℕ
deriving DecidableEq, Repr

/-- The RGB part of an `NRGBA`, used to state color equality
"modulo opacity". -/
def NRGBA.rgb (c : NRGBA) : ℕ × ℕ × ℕ := (c.r, c.g, c.b)

/-- The `RGBA()` method of a Go `color.RGBA{r8, g8, b8, 0xFF}` literal:
each 8-bit channel `v` becomes `v<<8 | v = v*0x101`, alpha is `0xFFFF`.
Used to model the `color.RGBA{..., 0xFF}` literals built in `blendStops`
and `GetColorFunction`. -/
def rgbaFull (r8 g8 b8 : ℕ) : Color16 := ⟨r8 * 257, g8 * 257, b8 * 257, 65535⟩

/-- `func ApplyOpacity(c color.Color, opacity float64) color.NRGBA` from
svgd.go: `r, g, b, _ := c.RGBA(); return color.NRGBA{uint8(r), uint8(g),
uint8(b), uint8(opacity * 0xFF)}`.  `uint8` of a `uint32` reduces mod 256;
`uint8` of a float truncates. -/
def ApplyOpacity (c : Color16) (opacity : ℚ) : NRGBA :=
  ⟨c.r % 256, c.g % 256, c.b % 256, goUint8F (opacity * 255)⟩

/-! ## Gradients (gradient source file, `src/unnamed/part_000`) -/

inductive SpreadMethod where
  | padSpread
  | reflectSpread
  | repeatSpread
deriving DecidableEq, Repr

inductive GradientUnits where
  | objectBoundingBox
  | userSpaceOnUse
deriving DecidableEq, Repr

/-- `GradStop` from the gradient source file: a stop color (a `color.Color`),
an offset and an opacity (both float64). -/
structure GradStop where
  stopColor : Color16
  offset : ℚ
  opacity : ℚ
deriving DecidableEq, Repr

/-- The bounds rectangle `struct{ X, Y, W, H float64 }`. -/
structure Rect where
  X : ℚ
  Y : ℚ
  W : ℚ
  H : ℚ
deriving DecidableEq, Repr

/-- `Gradient` from the gradient source file. -/
structure Gradient where
  points : Fin 5 → ℚ
  stops : List GradStop
  bounds : Rect
  matrix2D : Matrix2D
  spread : SpreadMethod
  units : GradientUnits
  isRadial : Bool

namespace Gradient

/-- `func (g *Gradient) blendStops(t, opacity float64, s1, s2 *GradStop,
flip bool) color.Color` — linear interpolation between two stops.  The Go
code guards the division by the `s2.offset == s1off` early return; the `ℚ`
division below is only reached when the divisor is nonzero. -/
def blendStops (t opacity : ℚ) (s1 s2 : GradStop) (flip : Bool) : NRGBA :=
  let shift := s1.offset > s2.offset ∧ flip = false
  let s1off := if shift then s1.offset - 1 else s1.offset
  let t1 := if shift ∧ t > 1 then t - 1 else t
  if s2.offset = s1off then
    ApplyOpacity s2.stopColor s2.opacity
  else
    let t2 := if flip then 1 - t1 else t1
    let tp := (t2 - s1off) / (s2.offset - s1off)
    ApplyOpacity
      (rgbaFull
        (goUint8F (((s1.stopColor.r : ℚ) * (1 - tp) + (s2.stopColor.r : ℚ) * tp) / 256))
        (goUint8F (((s1.stopColor.g : ℚ) * (1 - tp) + (s2.stopColor.g : ℚ) * tp) / 256))
        (goUint8F (((s1.stopColor.b : ℚ) * (1 - tp) + (s2.stopColor.b : ℚ) * tp) / 256)))
      ((s1.opacity * (1 - tp) + s2.opacity * tp) * opacity)

/-- `func (g *Gradient) tColor(t, opacity float64) color.Color` — spread-mode
stop lookup.  The two `for` loops advancing `place` are modelled by
`List.takeWhile` lengths (the first over the stop list, the second over the
reversed stop list, exactly as the Go loop indexes
`g.stops[d*2-place-1]`).  Out-of-range slice indexing — a Go panic, reachable
only for stop lists the callers never produce — is modelled as `none`. -/
def tColor (g : Gradient) (t opacity : ℚ) : Option NRGBA :=
  let d := g.stops.length
  if 1 ≤ t ∧ g.spread = SpreadMethod.padSpread then
    (g.stops.get? (d - 1)).map fun s => ApplyOpacity s.stopColor (s.opacity * opacity)
  else if t ≤ 0 ∧ g.spread = SpreadMethod.padSpread then
    (g.stops.get? 0).map fun s => ApplyOpacity s.stopColor (s.opacity * opacity)
  else
    let modRange : ℚ := if g.spread = SpreadMethod.reflectSpread then 2 else 1
    let md0 := goMod t modRange
    let md := if md0 < 0 then md0 + modRange else md0
    let place := (g.stops.takeWhile fun s => decide (md > s.offset)).length
    match g.spread with
    | SpreadMethod.repeatSpread =>
      if place = 0 ∨ place = d then do
        let s1 ← g.stops.get? (d - 1)
        let s2 ← g.stops.get? 0
        some (blendStops md opacity s1 s2 false)
      else do
        let s1 ← g.stops.get? (place - 1)
        let s2 ← g.stops.get? place
        some (blendStops md opacity s1 s2 false)
    | SpreadMethod.reflectSpread =>
      if place = 0 then
        (g.stops.get? 0).map fun s => ApplyOpacity s.stopColor (s.opacity * opacity)
      else if place = d then
        -- the second loop: `place` advances from `d` while
        -- `mod-1 > 1 - stops[d*2-place-1].offset`; writing `place = d + j`,
        -- it scans `g.stops.reverse`.
        let j := (g.stops.reverse.takeWhile fun s => decide (md - 1 > 1 - s.offset)).length
        if j = 0 then
          (g.stops.get? (d - 1)).map fun s => ApplyOpacity s.stopColor (s.opacity * opacity)
        else if j = d then
          (g.stops.get? 0).map fun s => ApplyOpacity s.stopColor (s.opacity * opacity)
        else do
          let s1 ← g.stops.get? (d - j)
          let s2 ← g.stops.get? (d - j - 1)
          some (blendStops (md - 1) opacity s1 s2 true)
      else do
        let s1 ← g.stops.get? (place - 1)
        let s2 ← g.stops.get? place
        some (blendStops md opacity s1 s2 false)
    | SpreadMethod.padSpread =>
      if place = 0 then
        (g.stops.get? 0).map fun s => ApplyOpacity s.stopColor (s.opacity * opacity)
      else if place = d then
        (g.stops.get? (d - 1)).map fun s => ApplyOpacity s.stopColor (s.opacity * opacity)
      else do
        let s1 ← g.stops.get? (place - 1)
        let s2 ← g.stops.get? place
        some (blendStops md opacity s1 s2 false)

end Gradient

/-- The value returned by `Gradient.GetColorFunction` (Go returns an
`interface{}` holding either a `color.Color` or a `rasterx.ColorFunc`
closure). -/
inductive ColorFunction where
  | solid (c : NRGBA)
  | sampler (g : Gradient) (opacity : ℚ)

namespace Gradient

/-- `func (g *Gradient) GetColorFunction(opacity float64) interface{}`.
With 0 stops it returns the fixed debug color `color.RGBA{255, 0, 255, 255}`
through `ApplyOpacity`; with 1 stop, that stop's color through
`ApplyOpacity`.  With ≥ 2 stops the Go code sorts the stops by offset
(`sort.Slice`) and returns a `rasterx.ColorFunc` closure whose per-pixel
geometry calls back into `tColor`; that closure is represented by the
`sampler` constructor carrying the sorted gradient and the captured
opacity. -/
def GetColorFunction (g : Gradient) (opacity : ℚ) : ColorFunction :=
  match g.stops with
  | [] => ColorFunction.solid (ApplyOpacity (rgbaFull 255 0 255) opacity)
  | [s] => ColorFunction.solid (ApplyOpacity s.stopColor opacity)
  | _ => ColorFunction.sampler
      { g with stops := g.stops.mergeSort fun a b => decide (a.offset ≤ b.offset) }
      opacity

end Gradient

/-! ## Arc center finding (svgp.go, `FindEllipseCenter`)

Embedded over `ℝ` because the code uses `math.Cos/Sin/Sqrt`.  The Go
function mutates `*ra, *rb` and returns `(cx, cy)`; here it returns the
quadruple `(ra', rb', cx, cy)`. -/

/-- Steps 1–4 of the center finding: the squared length of the half chord
(`midlenSq`) after moving the start point to the origin, rotating the
ellipse axis onto the x-axis and scaling x by `rb/ra`. -/
noncomputable def ellipseMidLenSq (ra rb rotX startX startY endX endY : ℝ) : ℝ :=
  let c := Real.cos rotX
  let s := Real.sin rotX
  let nx := endX - startX
  let ny := endY - startY
  let nx1 := nx * c + ny * s
  let ny1 := -nx * s + ny * c
  let nx2 := nx1 * (rb / ra)
  let midX := nx2 / 2
  let midY := ny1 / 2
  midX * midX + midY * midY

/-- `func FindEllipseCenter(ra, rb *float64, rotX, startX, startY, endX,
endY float64, sweep, smallArc bool) (cx, cy float64)` from svgp.go. -/
noncomputable def FindEllipseCenter (ra rb rotX startX startY endX endY : ℝ)
    (sweep smallArc : Bool) : ℝ × ℝ × ℝ × ℝ :=
  let c := Real.cos rotX
  let s := Real.sin rotX
  let nx := endX - startX
  let ny := endY - startY
  let nx1 := nx * c + ny * s
  let ny1 := -nx * s + ny * c
  let nx2 := nx1 * (rb / ra)
  let midX := nx2 / 2
  let midY := ny1 / 2
  let midlenSq := midX * midX + midY * midY
  let scaled := rb * rb < midlenSq
  let nrb := Real.sqrt midlenSq
  let ra' := if scaled then (if ra = rb then nrb else ra * nrb / rb) else ra
  let rb' := if scaled then nrb else rb
  let hr : ℝ :=
    if scaled then 0 else Real.sqrt (rb * rb - midlenSq) / Real.sqrt midlenSq
  let plus := (sweep && smallArc) || (!sweep && !smallArc)
  let cx0 := if plus then midX + midY * hr else midX - midY * hr
  let cy0 := if plus then midY - midX * hr else midY + midX * hr
  let cx1 := cx0 * (ra' / rb')
  (ra', rb', cx1 * c - cy0 * s + startX, cx1 * s + cy0 * c + startY)

/-! ## The path cursor and compiler (svgp.go)

Embedded over `ℚ`.  A `rasterx.Path` is modelled as the list of emitted
commands; `fixed.Int26_6(v*64)` is truncation.  The elliptical-arc emission
(`AddArcFromA`, transcendental) is a parameter `arcEmit` of the functions
that call it; `strconv.ParseFloat` (Go standard library) is a parameter
`parse`. -/

/-- One emitted rasterx path command, in 26.6 fixed point. -/
inductive PathCmd where
  | start (x y : ℤ)
  | line (x y : ℤ)
  | quad (cx cy x y : ℤ)
  | cube (c1x c1y c2x c2y x y : ℤ)
  | stop (closed : Bool)
deriving DecidableEq, Repr

/-- `fixed.Int26_6(v * 64)`: multiply by 64, truncate toward zero. -/
def toFixed (q : ℚ) : ℤ := ratTrunc (q * 64)

inductive ErrorMode where
  | ignoreError
  | warnError
  | strictError
deriving DecidableEq, Repr

/-- Errors produced by the path compiler: the `strconv` parse error
(`badNumber`), `paramMismatchError` and `commandUnknownError`. -/
inductive PathError where
  | badNumber
  | paramMismatch
  | commandUnknown
deriving DecidableEq, Repr

/-- `PathCursor` from svgp.go. -/
structure PathCursor where
  path : List PathCmd
  placeX : ℚ
  placeY : ℚ
  cntlPtX : ℚ
  cntlPtY : ℚ
  pathStartX : ℤ
  pathStartY : ℤ
  points : List ℚ
  lastKey : Char
  errorMode : ErrorMode
  inPath : Bool
deriving DecidableEq, Repr

/-- `func reflect(px, py, rx, ry float64) (x, y float64)`. -/
def reflectPt (px py rx ry : ℚ) : ℚ × ℚ := (px * 2 - rx, py * 2 - ry)

/-- `func (c *PathCursor) valsToAbs(last float64)`: running-sum conversion of
`v`/`h` parameters to absolute values. -/
def valsToAbs (last : ℚ) : List ℚ → List ℚ
  | [] => []
  | p :: ps => (last + p) :: valsToAbs (last + p) ps

/-- The inner loop of `pointsToAbs`: add `lx` to even positions and `ly` to
odd positions of one parameter set. -/
def addPairs (lx ly : ℚ) : List ℚ → List ℚ
  | [] => []
  | [x] => [x + lx]
  | x :: y :: r => (x + lx) :: (y + ly) :: addPairs lx ly r

/-- `func (c *PathCursor) pointsToAbs(sz int)`: convert the parameter buffer
to absolute coordinates one `sz`-sized set at a time; after each set the
anchor becomes that set's final coordinate pair.  (`sz = 0` would not
terminate in Go either; callers pass 2, 4 or 6.) -/
def pointsToAbs (sz : ℕ) (lx ly : ℚ) (pts : List ℚ) : List ℚ :=
  match pts, sz with
  | [], _ => []
  | pts, 0 => pts
  | p :: rest, szm + 1 =>
    let grp := addPairs lx ly ((p :: rest).take (szm + 1))
    grp ++ pointsToAbs (szm + 1) (grp.getD (szm - 1) 0) (grp.getD szm 0)
      ((p :: rest).drop (szm + 1))
termination_by pts.length
decreasing_by simp; omega

/-- `func (c *PathCursor) hasSetsOrMore(sz int, rel bool) bool`: the length
check, plus — only when it passes and `rel` holds — the absolute
conversion of the buffer. -/
def hasSetsOrMore (sz : ℕ) (rel : Bool) (placeX placeY : ℚ) (pts : List ℚ) :
    Bool × List ℚ :=
  if ¬(sz ≤ pts.length ∧ pts.length % sz = 0) then (false, pts)
  else (true, if rel then pointsToAbs sz placeX placeY pts else pts)

/-- The loop of `func (c *PathCursor) GetPoints(dataPoints string) error`.
The Go code tracks the current token as a byte range `[lastIndex, i)` of the
input and the previous rune `lr`; here the token's characters are
accumulated directly (`none` ↔ `lastIndex == -1`).  Returns the points
parsed so far together with the first parse error, if any (on error the Go
code leaves the successfully parsed prefix in `c.points`). -/
def getPointsLoop (parse : List Char → Option ℚ) :
    List Char → Char → Option (List Char) → List ℚ → List ℚ × Option PathError
  | [], _, cur, acc =>
    match cur with
    | none => (acc, none)
    | some tok =>
      match parse tok with
      | none => (acc, some PathError.badNumber)
      | some f => (acc ++ [f], none)
  | r :: rest, lr, cur, acc =>
    if r.isDigit = false ∧ r ≠ '.' ∧ ¬(r = '-' ∧ lr = 'e') ∧ r ≠ 'e' then
      match cur with
      | some tok =>
        match parse tok with
        | none => (acc, some PathError.badNumber)
        | some f =>
          getPointsLoop parse rest r (if r = '-' then some ['-'] else none) (acc ++ [f])
      | none =>
        getPointsLoop parse rest r (if r = '-' then some ['-'] else none) acc
    else
      getPointsLoop parse rest r (some (cur.getD [] ++ [r])) acc

/-- `GetPoints` (svgp.go): tokenize an SVG number list and parse each token.
`unicode.IsNumber` is modelled on the ASCII range by `Char.isDigit`. -/
def GetPoints (parse : List Char → Option ℚ) (s : List Char) :
    List ℚ × Option PathError :=
  getPointsLoop parse s ' ' none []

/-- The `Line` emission loops of the `M`/`L` cases: one `Line` per
coordinate pair. -/
def lineCmds : List ℚ → List PathCmd
  | x :: y :: r => PathCmd.line (toFixed x) (toFixed y) :: lineCmds r
  | _ => []

/-- The `QuadBezier` emission loop of the `Q` case: one command per set of
four parameters. -/
def quadCmds : List ℚ → List PathCmd
  | a :: b :: x :: y :: r =>
    PathCmd.quad (toFixed a) (toFixed b) (toFixed x) (toFixed y) :: quadCmds r
  | _ => []

/-- The `CubeBezier` emission loop of the `C` case: one command per set of
six parameters. -/
def cubeCmds : List ℚ → List PathCmd
  | a :: b :: c :: d :: x :: y :: r =>
    PathCmd.cube (toFixed a) (toFixed b) (toFixed c) (toFixed d)
      (toFixed x) (toFixed y) :: cubeCmds r
  | _ => []

/-- The per-set loop of the `T`/`t` case: reflect the previous control point
across the pen when the previous command was a quadratic, emit, and update
`cntlPt`, `lastKey` and the pen. -/
def tLoop (k : Char) (c : PathCursor) : List ℚ → PathCursor
  | x :: y :: r =>
    let refl := c.lastKey = 'q' ∨ c.lastKey = 'Q' ∨ c.lastKey = 'T' ∨ c.lastKey = 't'
    let p := if refl then reflectPt c.placeX c.placeY c.cntlPtX c.cntlPtY
             else (c.placeX, c.placeY)
    tLoop k
      { c with
        cntlPtX := p.1, cntlPtY := p.2,
        path := c.path ++
          [PathCmd.quad (toFixed p.1) (toFixed p.2) (toFixed x) (toFixed y)],
        lastKey := k, placeX := x, placeY := y } r
  | _ => c

/-- The per-set loop of the `S`/`s` case: reflect the previous control point
across the pen when the previous command was a cubic, emit, and update
`cntlPt`, `lastKey` and the pen. -/
def sLoop (k : Char) (c : PathCursor) : List ℚ → PathCursor
  | x0 :: y0 :: x1 :: y1 :: r =>
    let refl := c.lastKey = 'c' ∨ c.lastKey = 'C' ∨ c.lastKey = 's' ∨ c.lastKey = 'S'
    let p := if refl then reflectPt c.placeX c.placeY c.cntlPtX c.cntlPtY
             else (c.placeX, c.placeY)
    sLoop k
      { c with
        cntlPtX := x0, cntlPtY := y0,
        path := c.path ++
          [PathCmd.cube (toFixed p.1) (toFixed p.2) (toFixed x0) (toFixed y0)
            (toFixed x1) (toFixed y1)],
        lastKey := k, placeX := x1, placeY := y1 } r
  | _ => c

/-- The relative-endpoint adjustment inside the `a` loop:
`c.points[i+5] += c.placeX; c.points[i+6] += c.placeY` on the current
parameter set. -/
def arcAdjust (isRel : Bool) (px py : ℚ) (pts : List ℚ) : List ℚ :=
  if isRel then (pts.set 5 (pts.getD 5 0 + px)).set 6 (pts.getD 6 0 + py) else pts

theorem arcAdjust_length (isRel : Bool) (px py : ℚ) (pts : List ℚ) :
    (arcAdjust isRel px py pts).length = pts.length := by
  unfold arcAdjust; split <;> simp

/-- The `a`/`A` loop: per 7-parameter set, optionally make the endpoint
absolute, then hand the remaining parameter suffix (`c.points[i:]`, as in the
Go call `c.AddArcFromA(c.points[i:])`) to the arc emitter, which appends the
approximating cubics and moves the pen.  The emitter also covers
`FindEllipseCenter`'s radius adjustment; the scratch buffer mutation it does
in Go is not observable afterwards (`GetPoints` clears the buffer) and is not
threaded back. -/
def arcLoop (arcEmit : List ℚ → PathCursor → PathCursor) (isRel : Bool)
    (c : PathCursor) (pts : List ℚ) : PathCursor :=
  if hlen : 7 ≤ pts.length then
    arcLoop arcEmit isRel (arcEmit (arcAdjust isRel c.placeX c.placeY pts) c)
      ((arcAdjust isRel c.placeX c.placeY pts).drop 7)
  else c
termination_by pts.length
decreasing_by simp [arcAdjust_length]; omega

/-- The body of `func (c *PathCursor) addSeg(segString string) error` up to
(but not including) the final `c.lastKey = k` assignment, which only runs on
the non-error exits.  `k` is `segString[0]` and `params` is
`segString[1:]`. -/
def addSegBody (parse : List Char → Option ℚ)
    (arcEmit : List ℚ → PathCursor → PathCursor)
    (c0 : PathCursor) (k : Char) (params : List Char) :
    PathCursor × Option PathError :=
  let gp := GetPoints parse params
  let c : PathCursor := { c0 with points := gp.1 }
  match gp.2 with
  | some e => (c, some e)
  | none =>
    let pts := gp.1
    let l := pts.length
    if k = 'z' ∨ k = 'Z' then
      if l ≠ 0 then (c, some PathError.paramMismatch)
      else if c.inPath then
        ({ c with path := c.path ++ [PathCmd.stop true], inPath := false }, none)
      else (c, none)
    else if k = 'm' ∨ k = 'M' then
      let c := if k = 'm' then { c with placeX := 0, placeY := 0 } else c
      let hs := hasSetsOrMore 2 (k = 'm') c.placeX c.placeY pts
      let c := { c with points := hs.2 }
      if hs.1 = false then (c, some PathError.paramMismatch)
      else
        let sx := toFixed (hs.2.getD 0 0)
        let sy := toFixed (hs.2.getD 1 0)
        ({ c with pathStartX := sx, pathStartY := sy, inPath := true,
                  path := c.path ++ PathCmd.start sx sy :: lineCmds (hs.2.drop 2),
                  placeX := hs.2.getD (l - 2) 0,
                  placeY := hs.2.getD (l - 1) 0 }, none)
    else if k = 'l' ∨ k = 'L' then
      let hs := hasSetsOrMore 2 (k = 'l') c.placeX c.placeY pts
      let c := { c with points := hs.2 }
      if hs.1 = false then (c, some PathError.paramMismatch)
      else
        ({ c with path := c.path ++ lineCmds hs.2,
                  placeX := hs.2.getD (l - 2) 0,
                  placeY := hs.2.getD (l - 1) 0 }, none)
    else if k = 'v' ∨ k = 'V' then
      let pts2 := if k = 'v' then valsToAbs c.placeY pts else pts
      let c := { c with points := pts2 }
      let hs := hasSetsOrMore 1 false c.placeX c.placeY pts2
      if hs.1 = false then (c, some PathError.paramMismatch)
      else
        ({ c with path := c.path ++
                    pts2.map (fun p => PathCmd.line (toFixed c.placeX) (toFixed p)),
                  placeY := pts2.getD (l - 1) 0 }, none)
    else if k = 'h' ∨ k = 'H' then
      let pts2 := if k = 'h' then valsToAbs c.placeX pts else pts
      let c := { c with points := pts2 }
      let hs := hasSetsOrMore 1 false c.placeX c.placeY pts2
      if hs.1 = false then (c, some PathError.paramMismatch)
      else
        ({ c with path := c.path ++
                    pts2.map (fun p => PathCmd.line (toFixed p) (toFixed c.placeY)),
                  placeX := pts2.getD (l - 1) 0 }, none)
    else if k = 'q' ∨ k = 'Q' then
      let hs := hasSetsOrMore 4 (k = 'q') c.placeX c.placeY pts
      let c := { c with points := hs.2 }
      if hs.1 = false then (c, some PathError.paramMismatch)
      else
        ({ c with path := c.path ++ quadCmds hs.2,
                  cntlPtX := hs.2.getD (l - 4) 0, cntlPtY := hs.2.getD (l - 3) 0,
                  placeX := hs.2.getD (l - 2) 0,
                  placeY := hs.2.getD (l - 1) 0 }, none)
    else if k = 't' ∨ k = 'T' then
      let hs := hasSetsOrMore 2 (k = 't') c.placeX c.placeY pts
      let c := { c with points := hs.2 }
      if hs.1 = false then (c, some PathError.paramMismatch)
      else (tLoop k c hs.2, none)
    else if k = 'c' ∨ k = 'C' then
      let hs := hasSetsOrMore 6 (k = 'c') c.placeX c.placeY pts
      let c := { c with points := hs.2 }
      if hs.1 = false then (c, some PathError.paramMismatch)
      else
        ({ c with path := c.path ++ cubeCmds hs.2,
                  cntlPtX := hs.2.getD (l - 4) 0, cntlPtY := hs.2.getD (l - 3) 0,
                  placeX := hs.2.getD (l - 2) 0,
                  placeY := hs.2.getD (l - 1) 0 }, none)
    else if k = 's' ∨ k = 'S' then
      let hs := hasSetsOrMore 4 (k = 's') c.placeX c.placeY pts
      let c := { c with points := hs.2 }
      if hs.1 = false then (c, some PathError.paramMismatch)
      else (sLoop k c hs.2, none)
    else if k = 'a' ∨ k = 'A' then
      let hs := hasSetsOrMore 7 false c.placeX c.placeY pts
      if hs.1 = false then (c, some PathError.paramMismatch)
      else (arcLoop arcEmit (k = 'a') c pts, none)
    else
      if c.errorMode = ErrorMode.strictError then (c, some PathError.commandUnknown)
      else (c, none)

/-- `addSeg`: the body followed by `c.lastKey = k` on success. -/
def addSeg (parse : List Char → Option ℚ)
    (arcEmit : List ℚ → PathCursor → PathCursor)
    (c : PathCursor) (k : Char) (params : List Char) :
    PathCursor × Option PathError :=
  match addSegBody parse arcEmit c k params with
  | (c', none) => ({ c' with lastKey := k }, none)
  | r => r

/-- The segment splitter of `CompilePath`: walk the path string; an ASCII
letter other than `e` (`unicode.IsLetter`, modelled on the ASCII range)
closes the current segment and opens a new one; characters before the first
command letter are dropped.  Each segment is its command letter paired with
the following parameter text. -/
def splitSegsLoop : List Char → Option (Char × List Char) → List (Char × List Char)
  | [], cur =>
    match cur with
    | none => []
    | some s => [s]
  | v :: rest, cur =>
    if v.isAlpha ∧ v ≠ 'e' then
      (match cur with
       | none => []
       | some s => [s]) ++ splitSegsLoop rest (some (v, []))
    else
      match cur with
      | none => splitSegsLoop rest none
      | some s => splitSegsLoop rest (some (s.1, s.2 ++ [v]))

def splitSegs (s : List Char) : List (Char × List Char) := splitSegsLoop s none

/-- Run `addSeg` on each segment in order, stopping at the first error (the
Go loop returns the error immediately). -/
def runSegs (parse : List Char → Option ℚ)
    (arcEmit : List ℚ → PathCursor → PathCursor) :
    PathCursor → List (Char × List Char) → PathCursor × Option PathError
  | c, [] => (c, none)
  | c, s :: rest =>
    match addSeg parse arcEmit c s.1 s.2 with
    | (c', none) => runSegs parse arcEmit c' rest
    | (c', some e) => (c', some e)

/-- `func (c *PathCursor) init()`. -/
def initCursor (c : PathCursor) : PathCursor :=
  { c with placeX := 0, placeY := 0, points := [], lastKey := ' ',
           path := [], inPath := false }

/-- `func (c *PathCursor) CompilePath(svgPath string) error`: reset the
cursor, split the path text into command segments and feed them to `addSeg`,
stopping at the first error.  (The Go loop interleaves splitting with
`addSeg`; splitting is pure and independent of the cursor, and on error the
remaining text is never consumed, so the two-phase formulation computes the
same cursor and error.) -/
def CompilePath (parse : List Char → Option ℚ)
    (arcEmit : List ℚ → PathCursor → PathCursor)
    (c : PathCursor) (s : List Char) : PathCursor × Option PathError :=
  runSegs parse arcEmit (initCursor c) (splitSegs s)

/-! ## Gradient attribute parsing (svgd.go, `ReadIcon` / `readFraction`) -/

/-- `strings.TrimSpace`, modelled on the ASCII whitespace range. -/
def trimSpace (s : List Char) : List Char :=
  ((s.dropWhile Char.isWhitespace).reverse.dropWhile Char.isWhitespace).reverse

/-- The `%`-suffix handling of `readFraction`: the string to parse and the
divisor `d` (100 for percentages, 1 otherwise). -/
def percentSplit (v : List Char) : List Char × ℚ :=
  let v1 := trimSpace v
  if v1.getLast? = some '%' then (v1.dropLast, 100) else (v1, 1)

/-- The clamping step of `readFraction`:
`if f > 1 { f = 1 } else if f < 0 { f = 0 }`. -/
def clamp01 (f : ℚ) : ℚ := if f > 1 then 1 else if f < 0 then 0 else f

/-- `func readFraction(v string) (f float64, err error)` from svgd.go,
parameterized by the float parser (`strconv.ParseFloat`).  On a parse error
the Go function returns the error (the clamped garbage value is never used
by callers, which abort on error). -/
def readFraction (parse : List Char → Option ℚ) (v : List Char) : Option ℚ :=
  (parse (percentSplit v).1).map fun f => clamp01 (f / (percentSplit v).2)

/-- The `default:` arm of the gradient attribute switches:
`func (cursor *IconCursor) ReadGradAttr(attr xml.Attr) (err error)` from
svgd.go.  `cursor.parseTransform` is the parameter `parseTf`. -/
def ReadGradAttr (parseTf : List Char → Option Matrix2D) (g : Gradient)
    (name : String) (value : List Char) : Option Gradient :=
  if name = "gradientTransform" then
    (parseTf value).map fun m => { g with matrix2D := m }
  else if name = "gradientUnits" then
    some (if trimSpace value = "userSpaceOnUse".toList then
            { g with units := GradientUnits.userSpaceOnUse }
          else if trimSpace value = "objectBoundingBox".toList then
            { g with units := GradientUnits.objectBoundingBox }
          else g)
  else if name = "spreadMethod" then
    some (if trimSpace value = "pad".toList then
            { g with spread := SpreadMethod.padSpread }
          else if trimSpace value = "reflect".toList then
            { g with spread := SpreadMethod.reflectSpread }
          else if trimSpace value = "repeat".toList then
            { g with spread := SpreadMethod.repeatSpread }
          else g)
  else some g

/-- One attribute of a `<linearGradient>` element (the `case
"linearGradient"` switch in `ReadIcon`, svgd.go).  The `id` arm registers
the gradient in `icon.Ids` and never modifies the gradient value (its
`len(id) >= 0` guard is always true, so it cannot fail). -/
def linearGradAttr (parse : List Char → Option ℚ)
    (parseTf : List Char → Option Matrix2D)
    (g : Gradient) (name : String) (value : List Char) : Option Gradient :=
  if name = "id" then some g
  else if name = "x1" then
    (readFraction parse value).map fun q => { g with points := Function.update g.points 0 q }
  else if name = "y1" then
    (readFraction parse value).map fun q => { g with points := Function.update g.points 1 q }
  else if name = "x2" then
    (readFraction parse value).map fun q => { g with points := Function.update g.points 2 q }
  else if name = "y2" then
    (readFraction parse value).map fun q => { g with points := Function.update g.points 3 q }
  else ReadGradAttr parseTf g name value

/-- One attribute of a `<radialGradient>` element (the `case
"radialGradient"` switch in `ReadIcon`, svgd.go), together with the
`setFx`/`setFy` flags the loop tracks for the focus defaulting. -/
def radialGradAttr (parse : List Char → Option ℚ)
    (parseTf : List Char → Option Matrix2D)
    (g : Gradient) (setFx setFy : Bool) (name : String) (value : List Char) :
    Option (Gradient × Bool × Bool) :=
  if name = "id" then some (g, setFx, setFy)
  else if name = "r" then
    (readFraction parse value).map fun q =>
      ({ g with points := Function.update g.points 4 q }, setFx, setFy)
  else if name = "cx" then
    (readFraction parse value).map fun q =>
      ({ g with points := Function.update g.points 0 q }, setFx, setFy)
  else if name = "cy" then
    (readFraction parse value).map fun q =>
      ({ g with points := Function.update g.points 1 q }, setFx, setFy)
  else if name = "fx" then
    (readFraction parse value).map fun q =>
      ({ g with points := Function.update g.points 2 q }, true, setFy)
  else if name = "fy" then
    (readFraction parse value).map fun q =>
      ({ g with points := Function.update g.points 3 q }, setFx, true)
  else (ReadGradAttr parseTf g name value).map fun g2 => (g2, setFx, setFy)

/-- One attribute of a `<stop>` element (the `case "stop"` switch in
`ReadIcon`, svgd.go).  `ParseSVGColor` is the parameter `parseColor`;
`stop-opacity` goes through plain `strconv.ParseFloat` (no clamping). -/
def stopAttr (parse : List Char → Option ℚ)
    (parseColor : List Char → Option Color16)
    (s : GradStop) (name : String) (value : List Char) : Option GradStop :=
  if name = "offset" then
    (readFraction parse value).map fun q => { s with offset := q }
  else if name = "stop-color" then
    (parseColor value).map fun c => { s with stopColor := c }
  else if name = "stop-opacity" then
    (parse value).map fun q => { s with opacity := q }
  else some s

/-! ## A concrete decimal parser for witnesses

Modelled from the spec: Go's `strconv.ParseFloat` (standard library, not
part of this repository), restricted to the plain decimal numerals
(`[-]digits[.digits]`, at least one digit overall) that the concrete inputs
in this file use; other strings are rejected.  It only serves to instantiate
the abstract `parse` parameters at concrete inputs. -/

def digitsToNat (ds : List Char) : ℕ :=
  ds.foldl (fun n c => n * 10 + (c.toNat - '0'.toNat)) 0

def decParse (cs : List Char) : Option ℚ :=
  let p : ℚ × List Char :=
    match cs with
    | '-' :: r => (-1, r)
    | _ => (1, cs)
  let ip := p.2.takeWhile Char.isDigit
  let rest := p.2.dropWhile Char.isDigit
  match rest with
  | [] => if ip.isEmpty then none else some (p.1 * (digitsToNat ip : ℚ))
  | '.' :: r =>
    if r.all Char.isDigit ∧ (ip.isEmpty = false ∨ r.isEmpty = false) then
      some (p.1 * ((digitsToNat ip : ℚ) + (digitsToNat r : ℚ) / (10 : ℚ) ^ r.length))
    else none
  | _ => none

/-- A path cursor with all fields zeroed, used for concrete inputs. -/
def emptyCursor : PathCursor :=
  { path := [], placeX := 0, placeY := 0, cntlPtX := 0, cntlPtY := 0,
    pathStartX := 0, pathStartY := 0, points := [], lastKey := ' ',
    errorMode := ErrorMode.ignoreError, inPath := false }

/-- An arc emitter that appends nothing, used for concrete inputs that
contain no `a`/`A` command. -/
def nullArcEmit : List ℚ → PathCursor → PathCursor := fun _ c => c

/-! ## The tokenizer of the spec (§4.2), for comparison with `GetPoints`

Modelled from the spec: a token is a maximal substring of characters drawn
from digits, `'.'`, `'e'`, and a `'-'` immediately following `'e'`; a `'-'`
in any other position terminates the current token and starts a new one
(implicit separator); any other character terminates the current token. -/

/-- Whether `c` may extend the current token when the previous input
character is `prev`. -/
def tokenChar (prev c : Char) : Bool :=
  c.isDigit || c == '.' || (c == '-' && prev == 'e') || c == 'e'

/-- The spec's token splitter, threading the previous character and the
current (open) token. -/
def specTokensLoop : List Char → Char → Option (List Char) → List (List Char)
  | [], _, cur =>
    (match cur with
     | none => []
     | some t => [t])
  | c :: rest, prev, cur =>
    if tokenChar prev c then
      specTokensLoop rest c (some (cur.getD [] ++ [c]))
    else
      (match cur with
       | none => []
       | some t => [t]) ++
        specTokensLoop rest c (if c = '-' then some ['-'] else none)

/-- The token sequence of an SVG number list per the spec. -/
def specTokens (s : List Char) : List (List Char) := specTokensLoop s ' ' none

/-- Parse a token sequence left to right, stopping at the first token that
fails to parse and reporting the parse error (`BadNumber`). -/
def parseAll (parse : List Char → Option ℚ) :
    List (List Char) → List ℚ × Option PathError
  | [] => ([], none)
  | t :: ts =>
    (match parse t with
     | none => ([], some PathError.badNumber)
     | some f => (f :: (parseAll parse ts).1, (parseAll parse ts).2))

/-! ## Named branches of `tColor`, for the reflect-symmetry proofs -/

/-- The positive `math.Mod(t, 2)` computation of `tColor` in Reflect spread
mode (`modRange = 2`). -/
def posMod2 (t : ℚ) : ℚ :=
  let md0 := goMod t 2
  if md0 < 0 then md0 + 2 else md0

/-- The `PadSpread` arm of `tColor`'s spread switch, on an explicit stop
list and an already-computed positive `mod` value. -/
def padLookup (L : List GradStop) (md opacity : ℚ) : Option NRGBA :=
  let d := L.length
  let place := (L.takeWhile fun s => decide (md > s.offset)).length
  if place = 0 then
    (L.get? 0).map fun s => ApplyOpacity s.stopColor (s.opacity * opacity)
  else if place = d then
    (L.get? (d - 1)).map fun s => ApplyOpacity s.stopColor (s.opacity * opacity)
  else do
    let s1 ← L.get? (place - 1)
    let s2 ← L.get? place
    some (Gradient.blendStops md opacity s1 s2 false)

/-- The `ReflectSpread` arm of `tColor`'s spread switch, on an explicit stop
list and an already-computed positive `mod` value. -/
def reflectLookup (L : List GradStop) (md opacity : ℚ) : Option NRGBA :=
  let d := L.length
  let place := (L.takeWhile fun s => decide (md > s.offset)).length
  if place = 0 then
    (L.get? 0).map fun s => ApplyOpacity s.stopColor (s.opacity * opacity)
  else if place = d then
    let j := (L.reverse.takeWhile fun s => decide (md - 1 > 1 - s.offset)).length
    if j = 0 then
      (L.get? (d - 1)).map fun s => ApplyOpacity s.stopColor (s.opacity * opacity)
    else if j = d then
      (L.get? 0).map fun s => ApplyOpacity s.stopColor (s.opacity * opacity)
    else do
      let s1 ← L.get? (d - j)
      let s2 ← L.get? (d - j - 1)
      some (Gradient.blendStops (md - 1) opacity s1 s2 true)
  else do
    let s1 ← L.get? (place - 1)
    let s2 ← L.get? place
    some (Gradient.blendStops md opacity s1 s2 false)

/-- A 16-bit channel value that replicates an 8-bit value (`v*0x101`), as
produced for every stop color this program parses (`ParseSVGColor` returns
full-alpha `color.NRGBA`/`color.RGBA` values). -/
def byteRep (n : ℕ) : Prop := ∃ v, v ≤ 255 ∧ n = v * 257

/-- All three RGB channels of a color are byte-replicated. -/
def Color16.ByteRep (c : Color16) : Prop := byteRep c.r ∧ byteRep c.g ∧ byteRep c.b

/-- A two-stop Reflect gradient with strictly increasing offsets, witnessing
the reflect symmetry. -/
def reflGradientW : Gradient :=
  { points := fun _ => 0
    stops := [⟨⟨65535, 0, 0, 65535⟩, 0, 1⟩, ⟨⟨0, 0, 65535, 65535⟩, 1, 1⟩]
    bounds := ⟨0, 0, 1, 1⟩
    matrix2D := ⟨1, 0, 0, 1, 0, 0⟩
    spread := SpreadMethod.reflectSpread
    units := GradientUnits.objectBoundingBox
    isRadial := false }

/-- A two-stop Reflect gradient whose stops share the offset `1/2` (red then
blue), the counterexample to the reflect symmetry as claimed. -/
def dupGradientW : Gradient :=
  { points := fun _ => 0
    stops := [⟨⟨65535, 0, 0, 65535⟩, 1/2, 1⟩, ⟨⟨0, 0, 65535, 65535⟩, 1/2, 1⟩]
    bounds := ⟨0, 0, 1, 1⟩
    matrix2D := ⟨1, 0, 0, 1, 0, 0⟩
    spread := SpreadMethod.reflectSpread
    units := GradientUnits.objectBoundingBox
    isRadial := false }

/-- A concrete two-stop Pad gradient (red at offset 0, blue at offset 1),
used to witness **C4**. -/
def padGradientW : Gradient :=
  { points := fun _ => 0
    stops := [⟨⟨65535, 0, 0, 65535⟩, 0, 1⟩, ⟨⟨0, 0, 65535, 65535⟩, 1, 1⟩]
    bounds := ⟨0, 0, 1, 1⟩
    matrix2D := ⟨1, 0, 0, 1, 0, 0⟩
    spread := SpreadMethod.padSpread
    units := GradientUnits.objectBoundingBox
    isRadial := false }

/-- A transform parser that always fails, for concrete attribute inputs. -/
def tfNone : List Char → Option Matrix2D := fun _ => none

/-- A float parser returning a fixed value, used to instantiate the abstract
`strconv.ParseFloat` parameter in witnesses without rational-arithmetic
reduction. -/
def constParse (q : ℚ) : List Char → Option ℚ := fun _ => some q

/-! # Theorems -/

/-- **C2** (corrected).  Under the convention
`Transform x y = (a·x + c·y + e, b·x + d·y + f)`, `Mult` composes
right-to-left (`M1.Mult M2` applies `M2` first), and `Scale`, `Rotate`,
`SkewX`, `SkewY` (angles in radians) each return the composition
`M.Mult P` with the corresponding primitive matrix — but `Translate`
returns the reverse composition `P.Mult M` (the translation is applied
*after* `M`), not `M.Mult P` as claimed. -/
theorem matrix2D_constructors_compose :
    (∀ (m1 m2 : Matrix2D) (x y : ℝ),
      (m1.Mult m2).Transform x y =
        m1.Transform (m2.Transform x y).1 (m2.Transform x y).2)
    ∧ (∀ (a : Matrix2D) (sx sy : ℝ), a.Scale sx sy = a.Mult (scaleMatrix sx sy))
    ∧ (∀ (a : Matrix2D) (t : ℝ), a.Rotate t = a.Mult (rotationMatrix t))
    ∧ (∀ (a : Matrix2D) (t : ℝ), a.SkewX t = a.Mult (skewXMatrix t))
    ∧ (∀ (a : Matrix2D) (t : ℝ), a.SkewY t = a.Mult (skewYMatrix t))
    ∧ (∀ (a : Matrix2D) (dx dy : ℝ),
        a.Translate dx dy = (translationMatrix dx dy).Mult a) := by
  refine ⟨fun m1 m2 x y => ?_, fun a sx sy => rfl, fun a t => rfl,
    fun a t => rfl, fun a t => rfl, fun a dx dy => ?_⟩
  · simp only [Matrix2D.Mult, Matrix2D.Transform, Prod.mk.injEq]
    constructor <;> ring
  · cases a
    simp [Matrix2D.Translate, Matrix2D.Mult, translationMatrix]

/-- **C2** counterexample: for `M = (2,0,0,1,0,0)` (a scale by 2 in x),
`M.Translate 1 0` has `E = 1` while the claimed composition
`M.Mult (translate 1 0)` has `E = 2`. -/
theorem translate_is_not_right_composition :
    ¬ ((Matrix2D.mk 2 0 0 1 0 0).Translate 1 0 =
        (Matrix2D.mk 2 0 0 1 0 0).Mult (translationMatrix 1 0)) := by
  intro h
  have hE := congrArg Matrix2D.E h
  simp [Matrix2D.Translate, Matrix2D.Mult, translationMatrix] at hE

/-- **C8** (confirmed).  `GetColorFunction` on a gradient with zero stops
returns the fixed debug color `(255, 0, 255)` with alpha
`uint8(opacity·255)`; on a gradient with exactly one stop it returns that
stop's color through `ApplyOpacity` with the external opacity. -/
theorem getColorFunction_degenerate_stops :
    (∀ (g : Gradient) (op : ℚ), g.stops = [] →
      g.GetColorFunction op =
        ColorFunction.solid ⟨255, 0, 255, goUint8F (op * 255)⟩)
    ∧ (∀ (g : Gradient) (op : ℚ) (s : GradStop), g.stops = [s] →
      g.GetColorFunction op = ColorFunction.solid (ApplyOpacity s.stopColor op)) := by
  constructor
  · intro g op h
    simp [Gradient.GetColorFunction, h, ApplyOpacity, rgbaFull]
  · intro g op s h
    simp [Gradient.GetColorFunction, h]

/-- Witness for **C8** at a concrete zero-stop gradient and a concrete
one-stop gradient. -/
theorem getColorFunction_degenerate_stops_witness :
    ({ points := fun _ => 0, stops := [], bounds := ⟨0, 0, 1, 1⟩,
       matrix2D := ⟨1, 0, 0, 1, 0, 0⟩, spread := SpreadMethod.padSpread,
       units := GradientUnits.objectBoundingBox,
       isRadial := false } : Gradient).GetColorFunction 1 =
      ColorFunction.solid ⟨255, 0, 255, goUint8F (1 * 255)⟩
    ∧ ({ points := fun _ => 0, stops := [⟨⟨65535, 0, 0, 65535⟩, 0, 1⟩],
         bounds := ⟨0, 0, 1, 1⟩, matrix2D := ⟨1, 0, 0, 1, 0, 0⟩,
         spread := SpreadMethod.padSpread,
         units := GradientUnits.objectBoundingBox,
         isRadial := false } : Gradient).GetColorFunction 1 =
        ColorFunction.solid (ApplyOpacity ⟨65535, 0, 0, 65535⟩ 1) :=
  ⟨getColorFunction_degenerate_stops.1 _ 1 rfl,
   getColorFunction_degenerate_stops.2 _ 1 _ rfl⟩

/-- **C4** (confirmed).  In Pad spread mode, with at least two stops,
sampling at `t ≤ 0` returns the first stop's color and sampling at `t ≥ 1`
the last stop's color, channel-exactly, with alpha
`uint8(stopOpacity · externalOpacity · 255)`. -/
theorem tColor_pad_clamps (g : Gradient) (t op : ℚ)
    (hsp : g.spread = SpreadMethod.padSpread) (hlen : 2 ≤ g.stops.length) :
    (t ≤ 0 → ∀ s0, g.stops.head? = some s0 →
      g.tColor t op = some (ApplyOpacity s0.stopColor (s0.opacity * op)))
    ∧ (1 ≤ t → ∀ sl, g.stops.getLast? = some sl →
      g.tColor t op = some (ApplyOpacity sl.stopColor (sl.opacity * op))) := by
  constructor
  · intro h0 s0 hs0
    have hnot : ¬((1 : ℚ) ≤ t ∧ g.spread = SpreadMethod.padSpread) := by
      rintro ⟨h1, -⟩; linarith
    simp only [Gradient.tColor]
    rw [if_neg hnot, if_pos ⟨h0, hsp⟩, List.get?_zero, hs0]
    rfl
  · intro h1 sl hsl
    simp only [Gradient.tColor]
    rw [if_pos ⟨h1, hsp⟩, ← List.getLast?_eq_get?, hsl]
    rfl

/-- Witness for **C4**: sampling the concrete Pad gradient at `t = 0` and at
`t = 2`. -/
theorem tColor_pad_clamps_witness :
    padGradientW.tColor 0 1 =
      some (ApplyOpacity ⟨65535, 0, 0, 65535⟩ (1 * 1))
    ∧ padGradientW.tColor 2 1 =
      some (ApplyOpacity ⟨0, 0, 65535, 65535⟩ (1 * 1)) :=
  ⟨(tColor_pad_clamps padGradientW 0 1 rfl (by decide)).1 le_rfl _ rfl,
   (tColor_pad_clamps padGradientW 2 1 rfl (by decide)).2 (by decide) _ rfl⟩

/-- **C10** (confirmed).  A `z`/`Z` command with no parameters while no
subpath is open succeeds silently, emitting nothing; when a subpath is open
it emits exactly one `Stop(true)` and clears `inPath`, so a second
consecutive close never emits a second `Stop`. -/
theorem addSeg_close_behavior (parse : List Char → Option ℚ)
    (arcEmit : List ℚ → PathCursor → PathCursor) (c : PathCursor) (k : Char)
    (hk : k = 'z' ∨ k = 'Z') :
    (c.inPath = false →
      addSeg parse arcEmit c k [] = ({ c with points := [], lastKey := k }, none))
    ∧ (c.inPath = true →
      addSeg parse arcEmit c k [] =
        ({ c with points := [], path := c.path ++ [PathCmd.stop true],
                  inPath := false, lastKey := k }, none))
    ∧ (addSeg parse arcEmit (addSeg parse arcEmit c k []).1 k []).1.path =
        (addSeg parse arcEmit c k []).1.path := by
  rcases hk with rfl | rfl <;>
    refine ⟨fun hip => ?_, fun hip => ?_, ?_⟩ <;>
    first
      | simp [addSeg, addSegBody, GetPoints, getPointsLoop, hip]
      | cases hip : c.inPath <;>
          simp [addSeg, addSegBody, GetPoints, getPointsLoop, hip]

/-- Witness for **C10**: closing with no subpath open on the empty cursor,
and closing with a subpath open. -/
theorem addSeg_close_behavior_witness :
    addSeg decParse nullArcEmit emptyCursor 'z' [] =
      ({ emptyCursor with points := [], lastKey := 'z' }, none)
    ∧ addSeg decParse nullArcEmit { emptyCursor with inPath := true } 'z' [] =
      ({ emptyCursor with points := [],
                          path := emptyCursor.path ++ [PathCmd.stop true],
                          inPath := false, lastKey := 'z' }, none) :=
  ⟨(addSeg_close_behavior decParse nullArcEmit emptyCursor 'z' (Or.inl rfl)).1 rfl,
   (addSeg_close_behavior decParse nullArcEmit { emptyCursor with inPath := true }
      'z' (Or.inl rfl)).2.1 rfl⟩

/-- The clamp of `readFraction` always lands in `[0, 1]`. -/
theorem clamp01_mem (q : ℚ) : 0 ≤ clamp01 q ∧ clamp01 q ≤ 1 := by
  unfold clamp01
  split_ifs with h1 h2
  · exact ⟨zero_le_one, le_rfl⟩
  · exact ⟨le_rfl, zero_le_one⟩
  · exact ⟨le_of_not_lt h2, le_of_not_lt h1⟩

/-- Any successful `readFraction` result lies in `[0, 1]`. -/
theorem readFraction_bounds (parse : List Char → Option ℚ) (v : List Char)
    (q : ℚ) (h : readFraction parse v = some q) : 0 ≤ q ∧ q ≤ 1 := by
  unfold readFraction at h
  obtain ⟨f, -, rfl⟩ := Option.map_eq_some'.mp h
  exact clamp01_mem _

/-- **C9** (confirmed).  `readFraction` clamps every value that parses as a
float into `[0, 1]` without error (after dividing percentages by 100), and
every gradient geometry attribute (`x1,y1,x2,y2` on linearGradient,
`r,cx,cy,fx,fy` on radialGradient) as well as stop offsets goes through
`readFraction`, so each stored value lies in `[0, 1]`. -/
theorem readFraction_clamps_gradient_fractions :
    (∀ (parse : List Char → Option ℚ) (v : List Char) (f : ℚ),
      parse (percentSplit v).1 = some f →
      readFraction parse v = some (clamp01 (f / (percentSplit v).2)))
    ∧ (∀ q : ℚ, 0 ≤ clamp01 q ∧ clamp01 q ≤ 1)
    ∧ (∀ parse v q, readFraction parse v = some q → 0 ≤ q ∧ q ≤ 1)
    ∧ (∀ parse ptf g v g', linearGradAttr parse ptf g "x1" v = some g' →
        0 ≤ g'.points 0 ∧ g'.points 0 ≤ 1)
    ∧ (∀ parse ptf g v g', linearGradAttr parse ptf g "y1" v = some g' →
        0 ≤ g'.points 1 ∧ g'.points 1 ≤ 1)
    ∧ (∀ parse ptf g v g', linearGradAttr parse ptf g "x2" v = some g' →
        0 ≤ g'.points 2 ∧ g'.points 2 ≤ 1)
    ∧ (∀ parse ptf g v g', linearGradAttr parse ptf g "y2" v = some g' →
        0 ≤ g'.points 3 ∧ g'.points 3 ≤ 1)
    ∧ (∀ parse ptf g fx fy v r', radialGradAttr parse ptf g fx fy "r" v = some r' →
        0 ≤ r'.1.points 4 ∧ r'.1.points 4 ≤ 1)
    ∧ (∀ parse ptf g fx fy v r', radialGradAttr parse ptf g fx fy "cx" v = some r' →
        0 ≤ r'.1.points 0 ∧ r'.1.points 0 ≤ 1)
    ∧ (∀ parse ptf g fx fy v r', radialGradAttr parse ptf g fx fy "cy" v = some r' →
        0 ≤ r'.1.points 1 ∧ r'.1.points 1 ≤ 1)
    ∧ (∀ parse ptf g fx fy v r', radialGradAttr parse ptf g fx fy "fx" v = some r' →
        0 ≤ r'.1.points 2 ∧ r'.1.points 2 ≤ 1)
    ∧ (∀ parse ptf g fx fy v r', radialGradAttr parse ptf g fx fy "fy" v = some r' →
        0 ≤ r'.1.points 3 ∧ r'.1.points 3 ≤ 1)
    ∧ (∀ parse pcol s v s', stopAttr parse pcol s "offset" v = some s' →
        0 ≤ s'.offset ∧ s'.offset ≤ 1) := by
  refine ⟨fun parse v f h => ?_, clamp01_mem, readFraction_bounds,
    ?_, ?_, ?_, ?_, ?_, ?_, ?_, ?_, ?_, ?_⟩
  · unfold readFraction
    rw [h]
    rfl
  all_goals first
    | (intro parse ptf g v g' h
       simp only [linearGradAttr, String.reduceEq, if_false, if_true,
         reduceIte, Option.map_eq_some'] at h
       obtain ⟨q, hq, hg⟩ := h
       subst hg
       simpa using readFraction_bounds _ _ _ hq)
    | (intro parse ptf g fx fy v r' h
       simp only [radialGradAttr, String.reduceEq, if_false, if_true,
         reduceIte, Option.map_eq_some'] at h
       obtain ⟨q, hq, hg⟩ := h
       subst hg
       simpa using readFraction_bounds _ _ _ hq)
    | (intro parse pcol s v s' h
       simp only [stopAttr, String.reduceEq, if_false, if_true,
         reduceIte, Option.map_eq_some'] at h
       obtain ⟨q, hq, hg⟩ := h
       subst hg
       simpa using readFraction_bounds _ _ _ hq)

/-- Witness for **C9**: a value parsing to `150`% (i.e. `1.5`) is stored
clamped, both through `readFraction` directly and through the
`linearGradient` `x1` attribute arm. -/
theorem readFraction_clamps_witness :
    readFraction (constParse 150) ("150%".toList) = some (clamp01 (150 / 100))
    ∧ (0 ≤ clamp01 ((150 : ℚ) / 100) ∧ clamp01 ((150 : ℚ) / 100) ≤ 1)
    ∧ (0 ≤ ({ padGradientW with
              points := Function.update padGradientW.points 0
                (clamp01 (150 / 100)) } : Gradient).points 0
       ∧ ({ padGradientW with
            points := Function.update padGradientW.points 0
              (clamp01 (150 / 100)) } : Gradient).points 0 ≤ 1) :=
  ⟨readFraction_clamps_gradient_fractions.1 (constParse 150) ("150%".toList) 150 rfl,
   readFraction_clamps_gradient_fractions.2.1 _,
   readFraction_clamps_gradient_fractions.2.2.2.1 (constParse 150) tfNone
     padGradientW ("150%".toList) _ rfl⟩

/-- **C6** (confirmed).  When the requested radii are too small to span the
chord (`rb² < midlenSq` in normalized circle space), `FindEllipseCenter`
scales both radii: the returned radii are at least the requested ones, the
`ra/rb` ratio is preserved (stated multiplicatively: `ra'·rb = rb'·ra`), and
when `ra = rb` the new `ra` is set to `√midlenSq` directly.  The function
has no error return at all. -/
theorem findEllipseCenter_scales_radii (ra rb rotX sx sy ex ey : ℝ)
    (sweep smallArc : Bool) (hra : 0 < ra) (hrb : 0 < rb)
    (hsmall : rb ^ 2 < ellipseMidLenSq ra rb rotX sx sy ex ey) :
    ra ≤ (FindEllipseCenter ra rb rotX sx sy ex ey sweep smallArc).1
    ∧ rb ≤ (FindEllipseCenter ra rb rotX sx sy ex ey sweep smallArc).2.1
    ∧ (FindEllipseCenter ra rb rotX sx sy ex ey sweep smallArc).1 * rb =
        (FindEllipseCenter ra rb rotX sx sy ex ey sweep smallArc).2.1 * ra
    ∧ (ra = rb →
        (FindEllipseCenter ra rb rotX sx sy ex ey sweep smallArc).1 =
          Real.sqrt (ellipseMidLenSq ra rb rotX sx sy ex ey)) := by
  have hmid : ellipseMidLenSq ra rb rotX sx sy ex ey =
      (let c := Real.cos rotX
       let s := Real.sin rotX
       let nx := ex - sx
       let ny := ey - sy
       let nx1 := nx * c + ny * s
       let ny1 := -nx * s + ny * c
       let nx2 := nx1 * (rb / ra)
       let midX := nx2 / 2
       let midY := ny1 / 2
       midX * midX + midY * midY) := rfl
  set m := ellipseMidLenSq ra rb rotX sx sy ex ey with hm
  have hscaled : rb * rb < m := by
    have : rb ^ 2 = rb * rb := sq rb ▸ rfl
    linarith [hsmall]
  have h0m : (0 : ℝ) ≤ m := le_trans (mul_self_nonneg rb) (le_of_lt hscaled)
  have hrbsqrt : rb < Real.sqrt m := by
    have := Real.lt_sqrt (le_of_lt hrb) (y := m)
    exact this.mpr (by nlinarith)
  simp only [FindEllipseCenter, ← hmid, ← hm, if_pos hscaled]
  refine ⟨?_, ?_, ?_, ?_⟩
  · by_cases hab : ra = rb
    · simp only [if_pos hab]
      calc ra = rb := hab
        _ ≤ Real.sqrt m := le_of_lt hrbsqrt
    · simp only [if_neg hab]
      have h1 : (1 : ℝ) ≤ Real.sqrt m / rb :=
        (one_le_div hrb).mpr (le_of_lt hrbsqrt)
      calc ra = ra * 1 := (mul_one ra).symm
        _ ≤ ra * (Real.sqrt m / rb) := by
            exact mul_le_mul_of_nonneg_left h1 (le_of_lt hra)
        _ = ra * Real.sqrt m / rb := by ring
  · exact le_of_lt hrbsqrt
  · by_cases hab : ra = rb
    · simp only [if_pos hab]
      rw [hab]
    · simp only [if_neg hab]
      field_simp
      ring
  · intro hab
    simp only [if_pos hab]

/-- **C1** (corrected).  Every relative (lowercase) path command pre-adds the
current pen position to its parameter coordinates before emission — except
that `m` first *resets the pen to the origin*, so a relative `m` is always
interpreted absolutely: at the start of a path (where the pen is the origin
anyway) and also after earlier commands, where it is anchored at the origin
and *not* at the pen position those commands left.  Stated per command for
one parameter set, over any parser, arc emitter and cursor state; for `t`/`s`
the control-point reflection is pinned to the non-reflecting case, which
does not interact with the pre-addition. -/
theorem relative_commands_preadd_pen
    (parse : List Char → Option ℚ) (arcEmit : List ℚ → PathCursor → PathCursor)
    (c : PathCursor) (ps : List Char) :
    (∀ dx dy, GetPoints parse ps = ([dx, dy], none) →
      addSeg parse arcEmit c 'm' ps =
        ({ c with points := [dx, dy], placeX := dx, placeY := dy,
                  pathStartX := toFixed dx, pathStartY := toFixed dy,
                  inPath := true,
                  path := c.path ++ [PathCmd.start (toFixed dx) (toFixed dy)],
                  lastKey := 'm' }, none))
    ∧ (∀ dx dy, GetPoints parse ps = ([dx, dy], none) →
      addSeg parse arcEmit c 'l' ps =
        ({ c with points := [dx + c.placeX, dy + c.placeY],
                  path := c.path ++ [PathCmd.line (toFixed (dx + c.placeX))
                                      (toFixed (dy + c.placeY))],
                  placeX := dx + c.placeX, placeY := dy + c.placeY,
                  lastKey := 'l' }, none))
    ∧ (∀ dv, GetPoints parse ps = ([dv], none) →
      addSeg parse arcEmit c 'v' ps =
        ({ c with points := [c.placeY + dv],
                  path := c.path ++ [PathCmd.line (toFixed c.placeX)
                                      (toFixed (c.placeY + dv))],
                  placeY := c.placeY + dv, lastKey := 'v' }, none))
    ∧ (∀ dv, GetPoints parse ps = ([dv], none) →
      addSeg parse arcEmit c 'h' ps =
        ({ c with points := [c.placeX + dv],
                  path := c.path ++ [PathCmd.line (toFixed (c.placeX + dv))
                                      (toFixed c.placeY)],
                  placeX := c.placeX + dv, lastKey := 'h' }, none))
    ∧ (∀ a0 b0 x y, GetPoints parse ps = ([a0, b0, x, y], none) →
      addSeg parse arcEmit c 'q' ps =
        ({ c with points := [a0 + c.placeX, b0 + c.placeY,
                             x + c.placeX, y + c.placeY],
                  path := c.path ++
                    [PathCmd.quad (toFixed (a0 + c.placeX)) (toFixed (b0 + c.placeY))
                      (toFixed (x + c.placeX)) (toFixed (y + c.placeY))],
                  cntlPtX := a0 + c.placeX, cntlPtY := b0 + c.placeY,
                  placeX := x + c.placeX, placeY := y + c.placeY,
                  lastKey := 'q' }, none))
    ∧ (∀ x y, GetPoints parse ps = ([x, y], none) →
      ¬(c.lastKey = 'q' ∨ c.lastKey = 'Q' ∨ c.lastKey = 'T' ∨ c.lastKey = 't') →
      addSeg parse arcEmit c 't' ps =
        ({ c with points := [x + c.placeX, y + c.placeY],
                  cntlPtX := c.placeX, cntlPtY := c.placeY,
                  path := c.path ++
                    [PathCmd.quad (toFixed c.placeX) (toFixed c.placeY)
                      (toFixed (x + c.placeX)) (toFixed (y + c.placeY))],
                  placeX := x + c.placeX, placeY := y + c.placeY,
                  lastKey := 't' }, none))
    ∧ (∀ c1x c1y c2x c2y x y,
      GetPoints parse ps = ([c1x, c1y, c2x, c2y, x, y], none) →
      addSeg parse arcEmit c 'c' ps =
        ({ c with points := [c1x + c.placeX, c1y + c.placeY, c2x + c.placeX,
                             c2y + c.placeY, x + c.placeX, y + c.placeY],
                  path := c.path ++
                    [PathCmd.cube (toFixed (c1x + c.placeX)) (toFixed (c1y + c.placeY))
                      (toFixed (c2x + c.placeX)) (toFixed (c2y + c.placeY))
                      (toFixed (x + c.placeX)) (toFixed (y + c.placeY))],
                  cntlPtX := c2x + c.placeX, cntlPtY := c2y + c.placeY,
                  placeX := x + c.placeX, placeY := y + c.placeY,
                  lastKey := 'c' }, none))
    ∧ (∀ x0 y0 x1 y1, GetPoints parse ps = ([x0, y0, x1, y1], none) →
      ¬(c.lastKey = 'c' ∨ c.lastKey = 'C' ∨ c.lastKey = 's' ∨ c.lastKey = 'S') →
      addSeg parse arcEmit c 's' ps =
        ({ c with points := [x0 + c.placeX, y0 + c.placeY,
                             x1 + c.placeX, y1 + c.placeY],
                  cntlPtX := x0 + c.placeX, cntlPtY := y0 + c.placeY,
                  path := c.path ++
                    [PathCmd.cube (toFixed c.placeX) (toFixed c.placeY)
                      (toFixed (x0 + c.placeX)) (toFixed (y0 + c.placeY))
                      (toFixed (x1 + c.placeX)) (toFixed (y1 + c.placeY))],
                  placeX := x1 + c.placeX, placeY := y1 + c.placeY,
                  lastKey := 's' }, none))
    ∧ (∀ p0 p1 p2 p3 p4 p5 p6,
      GetPoints parse ps = ([p0, p1, p2, p3, p4, p5, p6], none) →
      addSeg parse arcEmit c 'a' ps =
        ({ (arcEmit [p0, p1, p2, p3, p4, p5 + c.placeX, p6 + c.placeY]
             { c with points := [p0, p1, p2, p3, p4, p5, p6] }) with
           lastKey := 'a' }, none)) := by
  refine ⟨fun dx dy h => ?_, fun dx dy h => ?_, fun dv h => ?_, fun dv h => ?_,
    fun a0 b0 x y h => ?_, fun x y h hno => ?_, fun c1x c1y c2x c2y x y h => ?_,
    fun x0 y0 x1 y1 h hno => ?_, fun p0 p1 p2 p3 p4 p5 p6 h => ?_⟩ <;>
    simp only [addSeg, addSegBody, h] <;>
    simp +decide [hasSetsOrMore, pointsToAbs, addPairs, lineCmds, quadCmds,
      cubeCmds, valsToAbs, tLoop, sLoop, arcLoop, arcAdjust, *]

/-- Counterexample for **C1**: compiling `M1 1m1 1` — the `m` segment
follows an `M` that leaves the pen at `(1,1)`, so under the claim the second
`Start` would be at `(2,2)` (fixed point `(128,128)`); the code emits it at
`(1,1)` (fixed point `(64,64)`), because `m` resets the pen to the origin. -/
theorem relative_moveto_not_anchored_at_pen :
    (CompilePath (constParse 1) nullArcEmit emptyCursor
        ("M1 1m1 1".toList)).1.path =
      [PathCmd.start 64 64, PathCmd.start 64 64]
    ∧ PathCmd.start 64 64 ≠ PathCmd.start (toFixed (1 + 1)) (toFixed (1 + 1)) := by
  constructor
  · have hsplit : splitSegs ("M1 1m1 1".toList) =
        [('M', ['1', ' ', '1']), ('m', ['1', ' ', '1'])] := by decide
    have hgp : GetPoints (constParse 1) ['1', ' ', '1'] = ([1, 1], none) := by
      simp only [GetPoints, getPointsLoop, constParse]
      simp +decide
    have h1 : addSeg (constParse 1) nullArcEmit (initCursor emptyCursor)
        'M' ['1', ' ', '1'] =
        ({ emptyCursor with points := [1, 1], pathStartX := 64, pathStartY := 64,
                            inPath := true, path := [PathCmd.start 64 64],
                            placeX := 1, placeY := 1, lastKey := 'M' }, none) := by
      simp only [addSeg, addSegBody, hgp, initCursor, emptyCursor]
      simp +decide [hasSetsOrMore, pointsToAbs, addPairs, lineCmds, toFixed, ratTrunc]
    have h2 : addSeg (constParse 1) nullArcEmit
        ({ emptyCursor with points := [1, 1], pathStartX := 64, pathStartY := 64,
                            inPath := true, path := [PathCmd.start 64 64],
                            placeX := 1, placeY := 1, lastKey := 'M' })
        'm' ['1', ' ', '1'] =
        ({ emptyCursor with points := [1, 1], pathStartX := 64, pathStartY := 64,
                            inPath := true,
                            path := [PathCmd.start 64 64, PathCmd.start 64 64],
                            placeX := 1, placeY := 1, lastKey := 'm' }, none) := by
      simp only [addSeg, addSegBody, hgp]
      simp +decide [hasSetsOrMore, pointsToAbs, addPairs, lineCmds, toFixed, ratTrunc]
    rw [CompilePath, hsplit]
    simp only [runSegs, h1, h2]
  · intro h
    have h128 : toFixed ((1 : ℚ) + 1) = 128 := by
      norm_num [toFixed, ratTrunc]
    rw [h128] at h
    simp at h

/-- Witness for **C1** at a concrete relative `l` segment: pen `(1,1)`,
parameters `(1, 1)`, emitted line at `(2,2)` = fixed `(128,128)`. -/
theorem relative_commands_preadd_pen_witness :
    addSeg (constParse 1) nullArcEmit
        { emptyCursor with placeX := 1, placeY := 1 } 'l' ['1', ' ', '1'] =
      ({ { emptyCursor with placeX := 1, placeY := 1 } with
         points := [1 + 1, 1 + 1],
         path := [] ++ [PathCmd.line (toFixed (1 + 1)) (toFixed (1 + 1))],
         placeX := 1 + 1, placeY := 1 + 1, lastKey := 'l' }, none) :=
  (relative_commands_preadd_pen (constParse 1) nullArcEmit
      { emptyCursor with placeX := 1, placeY := 1 } ['1', ' ', '1']).2.1 1 1
    (by
      simp only [GetPoints, getPointsLoop, constParse]
      simp +decide)

set_option maxHeartbeats 1000000 in
/-- An `addSeg` call that returns an error leaves the emitted path untouched:
every error exit of `addSegBody` happens before any command is appended. -/
theorem addSegBody_error_path (parse : List Char → Option ℚ)
    (arcEmit : List ℚ → PathCursor → PathCursor) (c : PathCursor) (k : Char)
    (ps : List Char) (cb : PathCursor) (e : PathError)
    (h : addSegBody parse arcEmit c k ps = (cb, some e)) : cb.path = c.path := by
  rcases hgp : GetPoints parse ps with ⟨pts, perr⟩
  simp only [addSegBody, hgp] at h
  cases perr with
  | some e0 =>
    simp only [Prod.mk.injEq, Option.some.injEq] at h
    obtain ⟨rfl, rfl⟩ := h
    rfl
  | none =>
    by_cases hz : k = 'z' ∨ k = 'Z'
    · simp only [if_pos hz] at h
      split_ifs at h <;>
        simp only [Prod.mk.injEq, Option.some.injEq, reduceCtorEq, and_false] at h <;>
        (obtain ⟨rfl, rfl⟩ := h; rfl)
    · simp only [if_neg hz] at h
      by_cases hm : k = 'm' ∨ k = 'M'
      · simp only [if_pos hm] at h
        split_ifs at h <;>
          simp only [Prod.mk.injEq, Option.some.injEq, reduceCtorEq, and_false] at h <;>
          (obtain ⟨rfl, rfl⟩ := h; rfl)
      · simp only [if_neg hm] at h
        by_cases hl : k = 'l' ∨ k = 'L'
        · simp only [if_pos hl] at h
          split_ifs at h <;>
            simp only [Prod.mk.injEq, Option.some.injEq, reduceCtorEq, and_false] at h <;>
            (obtain ⟨rfl, rfl⟩ := h; rfl)
        · simp only [if_neg hl] at h
          by_cases hv : k = 'v' ∨ k = 'V'
          · simp only [if_pos hv] at h
            split_ifs at h <;>
              simp only [Prod.mk.injEq, Option.some.injEq, reduceCtorEq, and_false] at h <;>
              (obtain ⟨rfl, rfl⟩ := h; rfl)
          · simp only [if_neg hv] at h
            by_cases hh : k = 'h' ∨ k = 'H'
            · simp only [if_pos hh] at h
              split_ifs at h <;>
                simp only [Prod.mk.injEq, Option.some.injEq, reduceCtorEq, and_false] at h <;>
                (obtain ⟨rfl, rfl⟩ := h; rfl)
            · simp only [if_neg hh] at h
              by_cases hq : k = 'q' ∨ k = 'Q'
              · simp only [if_pos hq] at h
                split_ifs at h <;>
                  simp only [Prod.mk.injEq, Option.some.injEq, reduceCtorEq, and_false] at h <;>
                  (obtain ⟨rfl, rfl⟩ := h; rfl)
              · simp only [if_neg hq] at h
                by_cases ht : k = 't' ∨ k = 'T'
                · simp only [if_pos ht] at h
                  split_ifs at h <;>
                    simp only [Prod.mk.injEq, Option.some.injEq, reduceCtorEq, and_false] at h <;>
                    (obtain ⟨rfl, rfl⟩ := h; rfl)
                · simp only [if_neg ht] at h
                  by_cases hc : k = 'c' ∨ k = 'C'
                  · simp only [if_pos hc] at h
                    split_ifs at h <;>
                      simp only [Prod.mk.injEq, Option.some.injEq, reduceCtorEq, and_false] at h <;>
                      (obtain ⟨rfl, rfl⟩ := h; rfl)
                  · simp only [if_neg hc] at h
                    by_cases hsk : k = 's' ∨ k = 'S'
                    · simp only [if_pos hsk] at h
                      split_ifs at h <;>
                        simp only [Prod.mk.injEq, Option.some.injEq, reduceCtorEq, and_false] at h <;>
                        (obtain ⟨rfl, rfl⟩ := h; rfl)
                    · simp only [if_neg hsk] at h
                      by_cases ha : k = 'a' ∨ k = 'A'
                      · simp only [if_pos ha] at h
                        split_ifs at h <;>
                          simp only [Prod.mk.injEq, Option.some.injEq, reduceCtorEq, and_false] at h <;>
                          (obtain ⟨rfl, rfl⟩ := h; rfl)
                      · simp only [if_neg ha] at h
                        split_ifs at h <;>
                          simp only [Prod.mk.injEq, Option.some.injEq, reduceCtorEq, and_false] at h <;>
                          (obtain ⟨rfl, rfl⟩ := h; rfl)

/-- **C3** (corrected).  `CompilePath` processes segments in order and stops
at the first erroneous segment, returning that segment's error; the
erroneous segment itself emits nothing (its error exits all precede any
emission).  However commands emitted by *earlier, valid* segments of the
same call remain in the cursor's path — the claim's "the cursor's emitted
command sequence carries no commands from the failed compilation" fails
(see the counterexample). -/
theorem compilePath_stops_at_first_error :
    (∀ (parse : List Char → Option ℚ) (arcEmit : List ℚ → PathCursor → PathCursor)
      (c : PathCursor) (k : Char) (ps : List Char) (c' : PathCursor) (e : PathError),
      addSeg parse arcEmit c k ps = (c', some e) → c'.path = c.path)
    ∧ (∀ (parse : List Char → Option ℚ) (arcEmit : List ℚ → PathCursor → PathCursor)
      (c : PathCursor) (pre : List (Char × List Char)) (sg : Char × List Char)
      (post : List (Char × List Char)) (c1 c2 : PathCursor) (e : PathError),
      runSegs parse arcEmit c pre = (c1, none) →
      addSeg parse arcEmit c1 sg.1 sg.2 = (c2, some e) →
      runSegs parse arcEmit c (pre ++ sg :: post) = (c2, some e))
    ∧ (∀ (parse : List Char → Option ℚ) (arcEmit : List ℚ → PathCursor → PathCursor)
      (c : PathCursor) (s : List Char),
      CompilePath parse arcEmit c s =
        runSegs parse arcEmit (initCursor c) (splitSegs s)) := by
  refine ⟨fun parse arcEmit c k ps c' e h => ?_, fun parse arcEmit c pre => ?_,
    fun _ _ _ _ => rfl⟩
  · unfold addSeg at h
    rcases hb : addSegBody parse arcEmit c k ps with ⟨cb, eb⟩
    rw [hb] at h
    cases eb with
    | none => simp at h
    | some e' =>
      simp only [Prod.mk.injEq, Option.some.injEq] at h
      obtain ⟨rfl, rfl⟩ := h
      exact addSegBody_error_path parse arcEmit c k ps _ _ hb
  · induction pre generalizing c with
    | nil =>
      intro sg post c1 c2 e h1 h2
      simp only [runSegs, Prod.mk.injEq] at h1
      obtain ⟨rfl, -⟩ := h1
      simp only [List.nil_append, runSegs, h2]
    | cons s0 pre' ih =>
      intro sg post c1 c2 e h1 h2
      simp only [runSegs] at h1 ⊢
      rcases haux : addSeg parse arcEmit c s0.1 s0.2 with ⟨cx, ex⟩
      rw [haux] at h1
      cases ex with
      | some e0 => simp at h1
      | none =>
        simp only [List.cons_append, runSegs, haux]
        exact ih cx sg post c1 c2 e h1 h2

/-- Counterexample for **C3**: compiling `M1 1L1` fails on the `L` segment
(one parameter is not a multiple of two), yet the cursor's path still holds
the `Start` emitted by the earlier valid `M` segment — the emitted command
sequence is not empty. -/
theorem compilePath_error_leaves_partial_path :
    (CompilePath (constParse 1) nullArcEmit emptyCursor ("M1 1L1".toList)).2 =
      some PathError.paramMismatch
    ∧ (CompilePath (constParse 1) nullArcEmit emptyCursor ("M1 1L1".toList)).1.path =
      [PathCmd.start 64 64]
    ∧ [PathCmd.start 64 64] ≠ ([] : List PathCmd) := by
  have hsplit : splitSegs ("M1 1L1".toList) =
      [('M', ['1', ' ', '1']), ('L', ['1'])] := by decide
  have hgp : GetPoints (constParse 1) ['1', ' ', '1'] = ([1, 1], none) := by
    simp only [GetPoints, getPointsLoop, constParse]
    simp +decide
  have hgp1 : GetPoints (constParse 1) ['1'] = ([1], none) := by
    simp only [GetPoints, getPointsLoop, constParse]
    simp +decide
  have h1 : addSeg (constParse 1) nullArcEmit (initCursor emptyCursor)
      'M' ['1', ' ', '1'] =
      ({ emptyCursor with points := [1, 1], pathStartX := 64, pathStartY := 64,
                          inPath := true, path := [PathCmd.start 64 64],
                          placeX := 1, placeY := 1, lastKey := 'M' }, none) := by
    simp only [addSeg, addSegBody, hgp, initCursor, emptyCursor]
    simp +decide [hasSetsOrMore, pointsToAbs, addPairs, lineCmds, toFixed, ratTrunc]
  have h2 : addSeg (constParse 1) nullArcEmit
      ({ emptyCursor with points := [1, 1], pathStartX := 64, pathStartY := 64,
                          inPath := true, path := [PathCmd.start 64 64],
                          placeX := 1, placeY := 1, lastKey := 'M' })
      'L' ['1'] =
      ({ emptyCursor with points := [1], pathStartX := 64, pathStartY := 64,
                          inPath := true, path := [PathCmd.start 64 64],
                          placeX := 1, placeY := 1, lastKey := 'M' },
        some PathError.paramMismatch) := by
    simp only [addSeg, addSegBody, hgp1]
    simp +decide [hasSetsOrMore]
  have hfin : CompilePath (constParse 1) nullArcEmit emptyCursor ("M1 1L1".toList) =
      ({ emptyCursor with points := [1], pathStartX := 64, pathStartY := 64,
                          inPath := true, path := [PathCmd.start 64 64],
                          placeX := 1, placeY := 1, lastKey := 'M' },
        some PathError.paramMismatch) := by
    rw [CompilePath, hsplit]
    simp only [runSegs, h1, h2]
  rw [hfin]
  exact ⟨rfl, rfl, by simp⟩

/-- Witness for **C3**: the first-error propagation applied at the concrete
segment list of `M1 1L1`. -/
theorem compilePath_stops_at_first_error_witness :
    runSegs (constParse 1) nullArcEmit (initCursor emptyCursor)
        ([('M', ['1', ' ', '1'])] ++ ('L', ['1']) :: []) =
      ({ emptyCursor with points := [1], pathStartX := 64, pathStartY := 64,
                          inPath := true, path := [PathCmd.start 64 64],
                          placeX := 1, placeY := 1, lastKey := 'M' },
        some PathError.paramMismatch) :=
  compilePath_stops_at_first_error.2.1 (constParse 1) nullArcEmit
    (initCursor emptyCursor) [('M', ['1', ' ', '1'])] ('L', ['1']) []
    _ _ PathError.paramMismatch
    (by
      simp only [runSegs]
      rw [show addSeg (constParse 1) nullArcEmit (initCursor emptyCursor)
            'M' ['1', ' ', '1'] =
          ({ emptyCursor with points := [1, 1], pathStartX := 64, pathStartY := 64,
                              inPath := true, path := [PathCmd.start 64 64],
                              placeX := 1, placeY := 1, lastKey := 'M' }, none) from by
        simp only [addSeg, addSegBody, GetPoints, getPointsLoop, constParse,
          initCursor, emptyCursor]
        simp +decide [hasSetsOrMore, pointsToAbs, addPairs, lineCmds, toFixed, ratTrunc]])
    (by
      simp only [addSeg, addSegBody, GetPoints, getPointsLoop, constParse]
      simp +decide [hasSetsOrMore])

/-- Witness for **C6**: the unit circle cannot span the chord from `(0,0)`
to `(4,0)` (`midlenSq = 4 > 1`), so both radii must grow. -/
theorem findEllipseCenter_scales_radii_witness :
    1 ≤ (FindEllipseCenter 1 1 0 0 0 4 0 true true).1
    ∧ 1 ≤ (FindEllipseCenter 1 1 0 0 0 4 0 true true).2.1
    ∧ (FindEllipseCenter 1 1 0 0 0 4 0 true true).1 * 1 =
        (FindEllipseCenter 1 1 0 0 0 4 0 true true).2.1 * 1
    ∧ ((1 : ℝ) = 1 →
        (FindEllipseCenter 1 1 0 0 0 4 0 true true).1 =
          Real.sqrt (ellipseMidLenSq 1 1 0 0 0 4 0)) :=
  findEllipseCenter_scales_radii 1 1 0 0 0 4 0 true true one_pos one_pos
    (by
      have h4 : ellipseMidLenSq 1 1 0 0 0 4 0 = 4 := by
        simp [ellipseMidLenSq, Real.cos_zero, Real.sin_zero]
        norm_num
      rw [h4]
      norm_num)

/-- `tokenChar` is false exactly when `GetPoints`'s separator condition
holds. -/
theorem tokenChar_false_iff (prev c : Char) :
    tokenChar prev c = false ↔
      (c.isDigit = false ∧ ¬c = '.' ∧ ¬(c = '-' ∧ prev = 'e') ∧ ¬c = 'e') := by
  simp only [tokenChar, Bool.or_eq_false_iff, Bool.and_eq_false_iff,
    beq_eq_false_iff_ne, ne_eq]
  constructor
  · rintro ⟨⟨⟨hd, hdot⟩, hme⟩, he⟩
    refine ⟨?_, hdot, ?_, he⟩
    · cases h : c.isDigit
      · rfl
      · exact absurd h (by simp [hd])
    · rintro ⟨rfl, rfl⟩
      rcases hme with h | h <;> exact h rfl
  · rintro ⟨hd, hdot, hme, he⟩
    refine ⟨⟨⟨by simp [hd], hdot⟩, ?_⟩, he⟩
    by_cases hc : c = '-'
    · right
      intro hp
      exact hme ⟨hc, hp⟩
    · left
      exact hc

/-- `GetPoints`'s loop computes exactly "split into spec tokens, then parse
each, stopping at the first failure". -/
theorem getPointsLoop_eq_parseAll (parse : List Char → Option ℚ) :
    ∀ (s : List Char) (prev : Char) (cur : Option (List Char)) (acc : List ℚ),
      getPointsLoop parse s prev cur acc =
        (acc ++ (parseAll parse (specTokensLoop s prev cur)).1,
          (parseAll parse (specTokensLoop s prev cur)).2) := by
  intro s
  induction s with
  | nil =>
    intro prev cur acc
    cases cur with
    | none => simp [getPointsLoop, specTokensLoop, parseAll]
    | some tok =>
      simp only [getPointsLoop, specTokensLoop]
      cases hp : parse tok with
      | none => simp [parseAll, hp]
      | some f => simp [parseAll, hp]
  | cons c rest ih =>
    intro prev cur acc
    by_cases htc : tokenChar prev c = true
    · have hcond : ¬(c.isDigit = false ∧ ¬c = '.' ∧ ¬(c = '-' ∧ prev = 'e') ∧ ¬c = 'e') := by
        rw [← tokenChar_false_iff]
        simp [htc]
      rw [show specTokensLoop (c :: rest) prev cur =
            specTokensLoop rest c (some (cur.getD [] ++ [c])) from by
        simp only [specTokensLoop]
        rw [if_pos htc]]
      rw [show getPointsLoop parse (c :: rest) prev cur acc =
            getPointsLoop parse rest c (some (cur.getD [] ++ [c])) acc from by
        simp only [getPointsLoop]
        rw [if_neg hcond]]
      exact ih c _ acc
    · have htc' : tokenChar prev c = false := by
        cases h : tokenChar prev c
        · rfl
        · exact absurd h htc
      have hcond := (tokenChar_false_iff prev c).mp htc'
      rw [show specTokensLoop (c :: rest) prev cur =
            (match cur with
             | none => []
             | some t => [t]) ++
              specTokensLoop rest c (if c = '-' then some ['-'] else none) from by
        simp only [specTokensLoop]
        rw [if_neg (by simp [htc'])]]
      rw [show getPointsLoop parse (c :: rest) prev cur acc =
            (match cur with
             | some tok =>
               (match parse tok with
                | none => (acc, some PathError.badNumber)
                | some f =>
                  getPointsLoop parse rest c
                    (if c = '-' then some ['-'] else none) (acc ++ [f]))
             | none =>
               getPointsLoop parse rest c
                 (if c = '-' then some ['-'] else none) acc) from by
        simp only [getPointsLoop]
        rw [if_pos hcond]]
      cases cur with
      | none => simpa using ih c _ acc
      | some tok =>
        cases hp : parse tok with
        | none => simp [parseAll, hp]
        | some f =>
          simp only [parseAll, hp, List.cons_append, List.nil_append]
          rw [ih c _ (acc ++ [f])]
          simp

/-- Every token produced by the spec splitter is nonempty and internally
coherent: each character may follow its predecessor per `tokenChar`. -/
theorem specTokensLoop_wf :
    ∀ (s : List Char) (prev : Char) (cur : Option (List Char)),
      (∀ t, cur = some t → t ≠ [] ∧ t.getLast? = some prev ∧
        List.Chain' (fun a b => tokenChar a b = true) t) →
      ∀ t ∈ specTokensLoop s prev cur,
        t ≠ [] ∧ List.Chain' (fun a b => tokenChar a b = true) t := by
  intro s
  induction s with
  | nil =>
    intro prev cur hinv t ht
    cases cur with
    | none => simp [specTokensLoop] at ht
    | some tok =>
      simp only [specTokensLoop, List.mem_singleton] at ht
      subst ht
      exact ⟨(hinv t rfl).1, (hinv t rfl).2.2⟩
  | cons c rest ih =>
    intro prev cur hinv t ht
    by_cases htc : tokenChar prev c = true
    · rw [show specTokensLoop (c :: rest) prev cur =
            specTokensLoop rest c (some (cur.getD [] ++ [c])) from by
        simp only [specTokensLoop]
        rw [if_pos htc]] at ht
      refine ih c _ ?_ t ht
      intro t' ht'
      cases cur with
      | none =>
        simp only [Option.getD_none, List.nil_append, Option.some.injEq] at ht'
        subst ht'
        exact ⟨by simp, by simp, by simp⟩
      | some tok =>
        simp only [Option.getD_some, Option.some.injEq] at ht'
        subst ht'
        obtain ⟨hne, hlast, hchain⟩ := hinv tok rfl
        refine ⟨by simp, by simp, ?_⟩
        rw [List.chain'_append]
        refine ⟨hchain, List.chain'_singleton c, ?_⟩
        intro x hx y hy
        simp only [List.head?_cons, Option.mem_def, Option.some.injEq] at hy
        subst hy
        rw [hlast] at hx
        simp only [Option.mem_def, Option.some.injEq] at hx
        subst hx
        exact htc
    · have htc' : tokenChar prev c = false := by
        cases h : tokenChar prev c
        · rfl
        · exact absurd h htc
      simp only [specTokensLoop] at ht
      rw [if_neg (by simp [htc'])] at ht
      rw [List.mem_append] at ht
      rcases ht with ht | ht
      · cases cur with
        | none => simp at ht
        | some tok =>
          simp only [List.mem_singleton] at ht
          subst ht
          exact ⟨(hinv t rfl).1, (hinv t rfl).2.2⟩
      · refine ih c _ ?_ t ht
        intro t' ht'
        by_cases hc : c = '-'
        · rw [if_pos hc, Option.some.injEq] at ht'
          subst ht'
          exact ⟨by simp, by simp [hc], by simp⟩
        · rw [if_neg hc] at ht'
          exact absurd ht' (by simp)

/-- `parseAll` reports the error of the first failing token. -/
theorem parseAll_first_error (parse : List Char → Option ℚ) :
    ∀ (pre : List (List Char)) (bad : List Char) (post : List (List Char)),
      (∀ t ∈ pre, (parse t).isSome = true) → parse bad = none →
      (parseAll parse (pre ++ bad :: post)).2 = some PathError.badNumber := by
  intro pre
  induction pre with
  | nil =>
    intro bad post _ hbad
    simp [parseAll, hbad]
  | cons t ts ih =>
    intro bad post hok hbad
    have ht : (parse t).isSome = true := hok t (by simp)
    rcases hp : parse t with - | f
    · rw [hp] at ht
      simp at ht
    · simp only [List.cons_append, parseAll, hp]
      exact ih bad post (fun u hu => hok u (by simp [hu])) hbad

/-- **C7** (confirmed).  `GetPoints` tokenizes its input exactly as the spec
describes: it equals "split into spec tokens (maximal runs of digits, `.`,
`e`, and `-` immediately after `e`; `-` elsewhere starts a new token; any
other character terminates the token), then parse each token in order,
returning the first parse error".  Every produced token is nonempty and
each of its characters may follow its predecessor, and a failing token makes
the whole call return the parse error. -/
theorem getPoints_tokenizes_per_spec :
    (∀ (parse : List Char → Option ℚ) (s : List Char),
      GetPoints parse s = parseAll parse (specTokens s))
    ∧ (∀ (s : List Char) (t : List Char), t ∈ specTokens s →
        t ≠ [] ∧ List.Chain' (fun a b => tokenChar a b = true) t)
    ∧ (∀ (parse : List Char → Option ℚ) (pre : List (List Char))
        (bad : List Char) (post : List (List Char)),
        (∀ t ∈ pre, (parse t).isSome = true) → parse bad = none →
        (parseAll parse (pre ++ bad :: post)).2 = some PathError.badNumber) :=
  ⟨fun parse s => by
      rw [GetPoints, specTokens, getPointsLoop_eq_parseAll]
      simp,
   fun s t ht => specTokensLoop_wf s ' ' none (by simp) t ht,
   parseAll_first_error⟩

/-- Witness for **C7** on the concrete input `1e-5 -2`, whose spec tokens
are `1e-5` and `-2`, and on a token list whose second token `-` fails to
parse. -/
theorem getPoints_tokenizes_per_spec_witness :
    GetPoints decParse ("1e-5 -2".toList) =
      parseAll decParse (specTokens ("1e-5 -2".toList))
    ∧ (['1', 'e', '-', '5'] ≠ [] ∧
        List.Chain' (fun a b => tokenChar a b = true) ['1', 'e', '-', '5'])
    ∧ (parseAll decParse ([['1']] ++ ['-'] :: [])).2 =
        some PathError.badNumber :=
  ⟨getPoints_tokenizes_per_spec.1 decParse _,
   getPoints_tokenizes_per_spec.2.1 ("1e-5 -2".toList) ['1', 'e', '-', '5']
     (by decide),
   getPoints_tokenizes_per_spec.2.2 decParse [['1']] ['-'] []
     (by decide) (by decide)⟩

/-! ### List `takeWhile` counting lemmas, for the stop-bracketing loops -/

theorem takeWhile_len_le {α : Type} (P : α → Bool) (L : List α) :
    (L.takeWhile P).length ≤ L.length := by
  induction L with
  | nil => simp
  | cons a l ih =>
    by_cases hP : P a
    · simp only [List.takeWhile_cons, if_pos hP, List.length_cons]
      omega
    · simp only [List.takeWhile_cons, if_neg hP, List.length_nil, List.length_cons]
      omega

theorem takeWhile_get_lt {α : Type} (P : α → Bool) (L : List α) (k : ℕ)
    (hk : k < (L.takeWhile P).length) :
    ∃ x, L.get? k = some x ∧ P x = true := by
  induction L generalizing k with
  | nil => simp at hk
  | cons a l ih =>
    by_cases hP : P a
    · rw [List.takeWhile_cons, if_pos hP] at hk
      cases k with
      | zero => exact ⟨a, rfl, hP⟩
      | succ k =>
        simp only [List.length_cons, Nat.succ_lt_succ_iff] at hk
        simpa using ih k hk
    · rw [List.takeWhile_cons, if_neg hP] at hk
      simp at hk

theorem takeWhile_get_boundary {α : Type} (P : α → Bool) (L : List α)
    (h : (L.takeWhile P).length < L.length) :
    ∃ x, L.get? ((L.takeWhile P).length) = some x ∧ P x = false := by
  induction L with
  | nil => simp at h
  | cons a l ih =>
    by_cases hP : P a
    · rw [List.takeWhile_cons, if_pos hP] at h ⊢
      simp only [List.length_cons, Nat.succ_lt_succ_iff] at h
      simpa using ih h
    · rw [List.takeWhile_cons, if_neg hP]
      exact ⟨a, rfl, by simpa using hP⟩

theorem takeWhile_len_ge {α : Type} (P : α → Bool) (L : List α) (n : ℕ)
    (hn : n ≤ L.length)
    (h : ∀ k, k < n → ∀ x, L.get? k = some x → P x = true) :
    n ≤ (L.takeWhile P).length := by
  induction L generalizing n with
  | nil => simpa using hn
  | cons a l ih =>
    cases n with
    | zero => exact Nat.zero_le _
    | succ n =>
      have hPa : P a = true := h 0 (Nat.succ_pos n) a rfl
      rw [List.takeWhile_cons, if_pos hPa]
      simp only [List.length_cons, Nat.succ_le_succ_iff]
      refine ih n (by simpa using hn) ?_
      intro k hk x hx
      exact h (k + 1) (Nat.succ_lt_succ hk) x (by simpa using hx)

theorem takeWhile_len_le_of_false {α : Type} (P : α → Bool) (L : List α) (n : ℕ)
    (x : α) (hx : L.get? n = some x) (hPx : P x = false) :
    (L.takeWhile P).length ≤ n := by
  induction L generalizing n with
  | nil => simp at hx
  | cons a l ih =>
    cases n with
    | zero =>
      simp only [List.get?_cons_zero, Option.some.injEq] at hx
      subst hx
      rw [List.takeWhile_cons, if_neg (by simp [hPx])]
      simp
    | succ n =>
      by_cases hP : P a
      · rw [List.takeWhile_cons, if_pos hP]
        simp only [List.length_cons, Nat.succ_le_succ_iff]
        exact ih n (by simpa using hx)
      · rw [List.takeWhile_cons, if_neg hP]
        simp

/-! ### Byte-replication arithmetic -/

/-- A byte-replicated 16-bit channel gives the same 8-bit value through the
`uint8(x)`-of-`x/256` path (blending) as through the `uint8(x)`-mod-256 path
(`ApplyOpacity`). -/
theorem byteRep_div256 (n : ℕ) (h : byteRep n) :
    goUint8F ((n : ℚ) / 256) = n % 256 := by
  obtain ⟨v, hv, rfl⟩ := h
  have hmod : v * 257 % 256 = v := by omega
  have hfloor : ⌊((v * 257 : ℕ) : ℚ) / 256⌋ = (v : ℤ) := by
    rw [Int.floor_eq_iff]
    push_cast
    constructor
    · rw [le_div_iff (by norm_num)]
      nlinarith [Nat.cast_nonneg (α := ℚ) v]
    · rw [div_lt_iff (by norm_num)]
      have : (v : ℚ) ≤ 255 := by exact_mod_cast hv
      nlinarith
  have hpos : ¬(((v * 257 : ℕ) : ℚ) / 256 < 0) := not_lt.mpr (by positivity)
  rw [goUint8F, ratTrunc, if_neg hpos, hfloor, hmod]
  have : (v : ℤ) % 256 = (v : ℤ) := by
    rw [Int.emod_eq_of_lt (Int.natCast_nonneg v)
      (by exact_mod_cast Nat.lt_succ_of_le hv)]
  rw [this]
  simp

theorem mul257_mod256 (a : ℕ) : a * 257 % 256 = a % 256 := by omega

theorem goUint8F_mod256 (q : ℚ) : goUint8F q % 256 = goUint8F q := by
  rw [goUint8F]
  omega


/-- Normal form of `blendStops` when no repeat-mode shift applies and the
two offsets differ: the RGB part is the per-channel interpolation at
parameter `tpv`. -/
theorem blendStops_rgb_eq (t op tpv : ℚ) (s1 s2 : GradStop) (flip : Bool)
    (hshift : ¬(s1.offset > s2.offset ∧ flip = false))
    (hne : ¬s2.offset = s1.offset)
    (htp : tpv = ((if flip = true then 1 - t else t) - s1.offset) /
      (s2.offset - s1.offset)) :
    (Gradient.blendStops t op s1 s2 flip).rgb =
      (goUint8F (((s1.stopColor.r : ℚ) * (1 - tpv) + (s2.stopColor.r : ℚ) * tpv) / 256),
       goUint8F (((s1.stopColor.g : ℚ) * (1 - tpv) + (s2.stopColor.g : ℚ) * tpv) / 256),
       goUint8F (((s1.stopColor.b : ℚ) * (1 - tpv) + (s2.stopColor.b : ℚ) * tpv) / 256)) := by
  subst htp
  have hfalse : (s1.offset > s2.offset ∧ flip = false) = False := eq_false hshift
  simp only [Gradient.blendStops, hfalse, false_and, if_false, if_neg hne,
    NRGBA.rgb, ApplyOpacity, rgbaFull, mul257_mod256, goUint8F_mod256]

/-- The mirrored (`flip = true`) blend of `s1, s2` at `1 - t` has the same
RGB as the direct blend of `s2, s1` at `t`. -/
theorem blendStops_flip_rgb (t op op' : ℚ) (s1 s2 : GradStop)
    (hlt : s2.offset < s1.offset) :
    (Gradient.blendStops (1 - t) op s1 s2 true).rgb =
      (Gradient.blendStops t op' s2 s1 false).rgb := by
  have hne1 : ¬s2.offset = s1.offset := ne_of_lt hlt
  have hne2 : ¬s1.offset = s2.offset := (ne_of_lt hlt).symm
  have hd : s2.offset - s1.offset ≠ 0 := sub_ne_zero.mpr hne1
  have hd' : s1.offset - s2.offset ≠ 0 := sub_ne_zero.mpr hne2
  rw [blendStops_rgb_eq (1 - t) op _ s1 s2 true (by simp) hne1 rfl,
      blendStops_rgb_eq t op' _ s2 s1 false
        (by rintro ⟨h, -⟩; exact absurd h (not_lt.mpr (le_of_lt hlt))) hne2 rfl]
  have htp : ((if (true : Bool) = true then 1 - (1 - t) else (1 - t)) - s1.offset) /
        (s2.offset - s1.offset) =
      1 - ((if (false : Bool) = true then 1 - t else t) - s2.offset) /
        (s1.offset - s2.offset) := by
    simp only [if_true, if_false]
    field_simp
    ring
  rw [htp]
  refine congrArg₂ _ (congrArg goUint8F (by ring)) (congrArg₂ _ (congrArg goUint8F (by ring)) (congrArg goUint8F (by ring)))

/-- A mirrored blend whose parameter lands exactly on `s2`'s offset
reproduces `s2`'s color channels (for byte-replicated channels). -/
theorem blendStops_hit_flip_rgb (op : ℚ) (s1 s2 : GradStop)
    (hlt : s2.offset < s1.offset) (hbr : s2.stopColor.ByteRep) :
    (Gradient.blendStops (1 - s2.offset) op s1 s2 true).rgb =
      (s2.stopColor.r % 256, s2.stopColor.g % 256, s2.stopColor.b % 256) := by
  have hd : s2.offset - s1.offset ≠ 0 := sub_ne_zero.mpr (ne_of_lt hlt)
  rw [blendStops_rgb_eq (1 - s2.offset) op _ s1 s2 true (by simp)
    (ne_of_lt hlt) rfl]
  rw [show ((if (true : Bool) = true then 1 - (1 - s2.offset) else (1 - s2.offset))
        - s1.offset) / (s2.offset - s1.offset) = 1 from by
    simp only [if_true]
    rw [show 1 - (1 - s2.offset) - s1.offset = s2.offset - s1.offset from by ring]
    exact div_self hd]
  obtain ⟨hr, hg, hb⟩ := hbr
  rw [show ((s1.stopColor.r : ℚ) * (1 - 1) + (s2.stopColor.r : ℚ) * 1) / 256 =
      (s2.stopColor.r : ℚ) / 256 from by ring]
  rw [show ((s1.stopColor.g : ℚ) * (1 - 1) + (s2.stopColor.g : ℚ) * 1) / 256 =
      (s2.stopColor.g : ℚ) / 256 from by ring]
  rw [show ((s1.stopColor.b : ℚ) * (1 - 1) + (s2.stopColor.b : ℚ) * 1) / 256 =
      (s2.stopColor.b : ℚ) / 256 from by ring]
  rw [byteRep_div256 _ hr, byteRep_div256 _ hg, byteRep_div256 _ hb]

/-- A direct blend whose parameter lands exactly on `s2`'s offset
reproduces `s2`'s color channels (for byte-replicated channels). -/
theorem blendStops_hit_noflip_rgb (op : ℚ) (s1 s2 : GradStop)
    (hlt : s1.offset < s2.offset) (hbr : s2.stopColor.ByteRep) :
    (Gradient.blendStops s2.offset op s1 s2 false).rgb =
      (s2.stopColor.r % 256, s2.stopColor.g % 256, s2.stopColor.b % 256) := by
  have hd : s2.offset - s1.offset ≠ 0 := sub_ne_zero.mpr (ne_of_lt hlt).symm
  rw [blendStops_rgb_eq s2.offset op _ s1 s2 false
    (by rintro ⟨h, -⟩; exact absurd h (not_lt.mpr (le_of_lt hlt)))
    (ne_of_lt hlt).symm rfl]
  rw [show ((if (false : Bool) = true then 1 - s2.offset else s2.offset)
        - s1.offset) / (s2.offset - s1.offset) = 1 from by
    rw [if_neg (by decide)]
    exact div_self hd]
  obtain ⟨hr, hg, hb⟩ := hbr
  rw [show ((s1.stopColor.r : ℚ) * (1 - 1) + (s2.stopColor.r : ℚ) * 1) / 256 =
      (s2.stopColor.r : ℚ) / 256 from by ring]
  rw [show ((s1.stopColor.g : ℚ) * (1 - 1) + (s2.stopColor.g : ℚ) * 1) / 256 =
      (s2.stopColor.g : ℚ) / 256 from by ring]
  rw [show ((s1.stopColor.b : ℚ) * (1 - 1) + (s2.stopColor.b : ℚ) * 1) / 256 =
      (s2.stopColor.b : ℚ) / 256 from by ring]
  rw [byteRep_div256 _ hr, byteRep_div256 _ hg, byteRep_div256 _ hb]

/-- `math.Mod(t, 2)` (made positive) is the identity on `[0, 2)`. -/
theorem posMod2_eq_self (t : ℚ) (h0 : 0 ≤ t) (h2 : t < 2) : posMod2 t = t := by
  have hfl : ⌊t / 2⌋ = 0 := by
    rw [Int.floor_eq_zero_iff]
    constructor
    · positivity
    · rw [div_lt_iff (by norm_num)]
      linarith
  have htr : ratTrunc (t / 2) = 0 := by
    rw [ratTrunc, if_neg (not_lt.mpr (by positivity)), hfl]
  rw [posMod2, goMod, htr]
  norm_num
  linarith

/-- `math.Mod(2, 2)` is `0`. -/
theorem posMod2_two : posMod2 (2 : ℚ) = 0 := by
  have htr : ratTrunc ((2 : ℚ) / 2) = 1 := by
    rw [ratTrunc, if_neg (by norm_num)]
    norm_num
  rw [posMod2, goMod, htr]
  norm_num

/-- In Reflect spread mode `tColor` is `reflectLookup` at the positive
`mod`-2 of `t` (the Pad shortcuts never fire). -/
theorem tColor_reflect_eq (g : Gradient) (t op : ℚ)
    (hsp : g.spread = SpreadMethod.reflectSpread) :
    g.tColor t op = reflectLookup g.stops (posMod2 t) op := by
  rw [Gradient.tColor, reflectLookup, posMod2]
  rw [hsp]
  simp only [reduceCtorEq, and_false, if_false, reduceIte, eq_self_iff_true, if_true]

/-- For `mod ≤ 1` the Reflect arm behaves exactly like the Pad arm: the
reverse scan never advances. -/
theorem reflectLookup_eq_padLookup (L : List GradStop) (md op : ℚ)
    (hrange : ∀ s ∈ L, 0 ≤ s.offset ∧ s.offset ≤ 1)
    (hmd : md ≤ 1) : reflectLookup L md op = padLookup L md op := by
  rw [reflectLookup, padLookup]
  by_cases h0 : (L.takeWhile fun s => decide (md > s.offset)).length = 0
  · rw [if_pos h0, if_pos h0]
  · rw [if_neg h0, if_neg h0]
    by_cases hd : (L.takeWhile fun s => decide (md > s.offset)).length = L.length
    · rw [if_pos hd, if_pos hd]
      have hj : (L.reverse.takeWhile fun s => decide (md - 1 > 1 - s.offset)).length = 0 := by
        cases hrev : L.reverse with
        | nil => simp [hrev]
        | cons a as =>
          have ha : a ∈ L := by
            have h1 : a ∈ L.reverse := by
              rw [hrev]
              exact List.mem_cons_self a as
            simpa using h1
          have h2 := (hrange a ha).2
          rw [List.takeWhile_cons, if_neg ?_]
          · rfl
          · simp only [decide_eq_true_eq]
            exact not_lt.mpr (by linarith)
      rw [hj, if_pos rfl]
    · rw [if_neg hd, if_neg hd]

/-- In a strictly-sorted stop list, offsets increase with the index. -/
theorem offsets_mono (L : List GradStop)
    (hsorted : List.Pairwise (fun a b => a.offset < b.offset) L) :
    ∀ (i k : ℕ) (x y : GradStop), i < k →
      L.get? i = some x → L.get? k = some y → x.offset < y.offset := by
  intro i k x y hik hx hy
  obtain ⟨hi, hgx⟩ := List.get?_eq_some.mp hx
  obtain ⟨hk, hgy⟩ := List.get?_eq_some.mp hy
  subst hgx
  subst hgy
  exact List.pairwise_iff_get.mp hsorted ⟨i, hi⟩ ⟨k, hk⟩ hik

/-- Core of the reflect symmetry: for `1 < mod < 2` the Reflect arm walks
the stop list in reverse and produces (channel-exactly, in RGB) the Pad arm
value at `2 - mod`. -/
theorem reflectLookup_rgb_eq_padLookup (L : List GradStop) (md op : ℚ)
    (hsorted : List.Pairwise (fun a b => a.offset < b.offset) L)
    (hrange : ∀ s ∈ L, 0 ≤ s.offset ∧ s.offset ≤ 1)
    (hbyte : ∀ s ∈ L, s.stopColor.ByteRep)
    (hd2 : 2 ≤ L.length)
    (hm1 : 1 < md) (hm2 : md < 2) :
    (reflectLookup L md op).map NRGBA.rgb =
      (padLookup L (2 - md) op).map NRGBA.rgb := by
  have hplace : (L.takeWhile fun s => decide (md > s.offset)).length = L.length := by
    refine le_antisymm (takeWhile_len_le _ _) ?_
    refine takeWhile_len_ge _ _ _ le_rfl ?_
    intro k hk x hx
    have hxL : x ∈ L := List.get?_mem hx
    have hx1 := (hrange x hxL).2
    simp only [decide_eq_true_eq]
    linarith
  have hpred : (fun s : GradStop => decide (md - 1 > 1 - s.offset)) =
      (fun s => decide (s.offset > 2 - md)) := by
    funext s
    refine decide_eq_decide.mpr ?_
    constructor <;> intro <;> linarith
  rw [reflectLookup, hplace, hpred, if_neg (by omega), if_pos rfl]
  have hdrev : L.reverse.length = L.length := List.length_reverse L
  have hmono := offsets_mono L hsorted
  by_cases hj0 : (L.reverse.takeWhile fun s => decide (s.offset > 2 - md)).length = 0
  · -- j = 0 : every offset ≤ 2 - md at the top; reflect returns the last stop
    rw [if_pos hj0]
    obtain ⟨y, hyrev, hPy⟩ :=
      takeWhile_get_boundary (fun s => decide (s.offset > 2 - md)) L.reverse
        (by rw [hj0, hdrev]; omega)
    rw [hj0] at hyrev
    rw [List.get?_reverse (by omega)] at hyrev
    rw [show L.length - 1 - 0 = L.length - 1 from by omega] at hyrev
    have hyle : y.offset ≤ 2 - md := by
      have := of_decide_eq_false hPy
      linarith [not_lt.mp this]
    by_cases hyeq : y.offset = 2 - md
    · -- tie: the pad place is d - 1 and the pad blend hits the last stop
      have hpl : (L.takeWhile fun s => decide (2 - md > s.offset)).length =
          L.length - 1 := by
        refine le_antisymm ?_ ?_
        · refine takeWhile_len_le_of_false _ _ _ y hyrev ?_
          simp only [decide_eq_false_iff_not]
          rw [hyeq]
          exact lt_irrefl _
        · refine takeWhile_len_ge _ _ _ (by omega) ?_
          intro k hk x hx
          simp only [decide_eq_true_eq]
          have := hmono k (L.length - 1) x y (by omega) hx hyrev
          linarith [hyeq ▸ this]
      rw [padLookup, hpl, if_neg (by omega), if_neg (by omega)]
      obtain ⟨z, hz⟩ : ∃ z, L.get? (L.length - 1 - 1) = some z :=
        ⟨L.get ⟨L.length - 1 - 1, by omega⟩, List.get?_eq_get _⟩
      rw [hz, hyrev]
      simp only [Option.bind_eq_bind, Option.map_some', Option.some_bind]
      refine congrArg some ?_
      have hltzy : z.offset < y.offset :=
        hmono (L.length - 1 - 1) (L.length - 1) z y (by omega) hz hyrev
      rw [show (2 - md : ℚ) = y.offset from hyeq.symm]
      rw [blendStops_hit_noflip_rgb op z y hltzy
        (hbyte y (List.get?_mem hyrev))]
      rfl
    · -- no tie: the pad place is d and both sides return the last stop
      have hylt : y.offset < 2 - md := lt_of_le_of_ne hyle hyeq
      have hpl : (L.takeWhile fun s => decide (2 - md > s.offset)).length =
          L.length := by
        refine le_antisymm (takeWhile_len_le _ _) ?_
        refine takeWhile_len_ge _ _ _ le_rfl ?_
        intro k hk x hx
        simp only [decide_eq_true_eq]
        rcases Nat.lt_or_ge k (L.length - 1) with hklt | hkge
        · have := hmono k (L.length - 1) x y hklt hx hyrev
          linarith
        · have hkeq : k = L.length - 1 := by omega
          rw [hkeq, hyrev] at hx
          cases hx
          linarith
      rw [padLookup, hpl, if_neg (by omega), if_pos rfl]
  · rw [if_neg hj0]
    by_cases hjd : (L.reverse.takeWhile fun s => decide (s.offset > 2 - md)).length =
        L.length
    · -- j = d : every offset > 2 - md; both sides return the first stop
      rw [if_pos hjd]
      obtain ⟨x, hxrev, hPx⟩ :=
        takeWhile_get_lt (fun s => decide (s.offset > 2 - md)) L.reverse
          (L.length - 1) (by rw [hjd]; omega)
      rw [List.get?_reverse (by omega),
        show L.length - 1 - (L.length - 1) = 0 from by omega] at hxrev
      have hxgt : x.offset > 2 - md := of_decide_eq_true hPx
      have hpl : (L.takeWhile fun s => decide (2 - md > s.offset)).length = 0 := by
        refine Nat.le_zero.mp ?_
        refine takeWhile_len_le_of_false _ _ _ x hxrev ?_
        simp only [decide_eq_false_iff_not]
        linarith
      rw [padLookup, hpl, if_pos rfl]
    · -- 0 < j < d : interior
      rw [if_neg hjd]
      have hjlt : (L.reverse.takeWhile fun s => decide (s.offset > 2 - md)).length <
          L.length := by
        have := takeWhile_len_le (fun s => decide (s.offset > 2 - md)) L.reverse
        rw [hdrev] at this
        omega
      obtain ⟨x, hxrev, hPx⟩ :=
        takeWhile_get_lt (fun s => decide (s.offset > 2 - md)) L.reverse
          ((L.reverse.takeWhile fun s => decide (s.offset > 2 - md)).length - 1)
          (by omega)
      obtain ⟨y, hyrev, hPy⟩ :=
        takeWhile_get_boundary (fun s => decide (s.offset > 2 - md)) L.reverse
          (by omega)
      set j := (L.reverse.takeWhile fun s => decide (s.offset > 2 - md)).length with hjdef
      rw [List.get?_reverse (by omega),
        show L.length - 1 - (j - 1) = L.length - j from by omega] at hxrev
      rw [List.get?_reverse (by omega),
        show L.length - 1 - j = L.length - j - 1 from by omega] at hyrev
      have hxgt : x.offset > 2 - md := of_decide_eq_true hPx
      have hyle : y.offset ≤ 2 - md := by
        have := of_decide_eq_false hPy
        linarith [not_lt.mp this]
      rw [hxrev, hyrev]
      simp only [Option.bind_eq_bind, Option.some_bind, Option.map_some']
      by_cases hyeq : y.offset = 2 - md
      · -- tie at the pad sample point
        have hpl : (L.takeWhile fun s => decide (2 - md > s.offset)).length =
            L.length - j - 1 := by
          refine le_antisymm ?_ ?_
          · refine takeWhile_len_le_of_false _ _ _ y hyrev ?_
            simp only [decide_eq_false_iff_not]
            rw [hyeq]
            exact lt_irrefl _
          · refine takeWhile_len_ge _ _ _ (by omega) ?_
            intro k hk z hz
            simp only [decide_eq_true_eq]
            have := hmono k (L.length - j - 1) z y (by omega) hz hyrev
            linarith [hyeq ▸ this]
        have hltyx : y.offset < x.offset := by linarith
        by_cases hq0 : L.length - j - 1 = 0
        · -- the tie is at the very first stop
          rw [padLookup, hpl, if_pos hq0]
          rw [hq0] at hyrev
          rw [hyrev]
          simp only [Option.map_some']
          refine congrArg some ?_
          rw [show (md - 1 : ℚ) = 1 - y.offset from by rw [hyeq]; ring]
          rw [blendStops_hit_flip_rgb op x y hltyx
            (hbyte y (List.get?_mem hyrev))]
          rfl
        · -- the tie is at an interior stop
          rw [padLookup, hpl, if_neg hq0, if_neg (by omega)]
          obtain ⟨z, hz⟩ : ∃ z, L.get? (L.length - j - 1 - 1) = some z :=
            ⟨L.get ⟨L.length - j - 1 - 1, by omega⟩, List.get?_eq_get _⟩
          rw [hz, hyrev]
          simp only [Option.bind_eq_bind, Option.some_bind, Option.map_some']
          refine congrArg some ?_
          have hltzy : z.offset < y.offset :=
            hmono (L.length - j - 1 - 1) (L.length - j - 1) z y (by omega) hz hyrev
          rw [show (md - 1 : ℚ) = 1 - y.offset from by rw [hyeq]; ring]
          rw [blendStops_hit_flip_rgb op x y hltyx
            (hbyte y (List.get?_mem hyrev))]
          rw [show (2 - md : ℚ) = y.offset from hyeq.symm]
          rw [blendStops_hit_noflip_rgb op z y hltzy
            (hbyte y (List.get?_mem hyrev))]
      · -- no tie: the two blends mirror each other
        have hylt : y.offset < 2 - md := lt_of_le_of_ne hyle hyeq
        have hpl : (L.takeWhile fun s => decide (2 - md > s.offset)).length =
            L.length - j := by
          refine le_antisymm ?_ ?_
          · refine takeWhile_len_le_of_false _ _ _ x hxrev ?_
            simp only [decide_eq_false_iff_not]
            linarith
          · refine takeWhile_len_ge _ _ _ (by omega) ?_
            intro k hk z hz
            simp only [decide_eq_true_eq]
            rcases Nat.lt_or_ge k (L.length - j - 1) with hklt | hkge
            · have := hmono k (L.length - j - 1) z y hklt hz hyrev
              linarith
            · have hkeq : k = L.length - j - 1 := by omega
              rw [hkeq, hyrev] at hz
              cases hz
              linarith
        rw [padLookup, hpl, if_neg (by omega), if_neg (by omega)]
        rw [show L.length - j - 1 = L.length - j - 1 from rfl, hyrev,
          show L.length - j = L.length - j from rfl, hxrev]
        simp only [Option.bind_eq_bind, Option.some_bind, Option.map_some']
        refine congrArg some ?_
        have hltyx : y.offset < x.offset := by linarith
        rw [show (md - 1 : ℚ) = 1 - (2 - md) from by ring]
        exact blendStops_flip_rgb (2 - md) op op x y hltyx

/-- **C5** (corrected).  In Reflect spread mode, for a gradient with at
least two stops whose offsets are *strictly* ascending and lie in `[0, 1]`,
and whose stop colors have byte-replicated 16-bit channels (as all colors
parsed by this program do), sampling satisfies
`sample(t) = sample(2 - t)` modulo opacity (RGB channels equal) for every
`t ∈ [0, 2]`.  With merely non-decreasing offsets the claim is false: two
stops sharing an offset break the symmetry (see the counterexample). -/
theorem tColor_reflect_symmetric (g : Gradient) (t op : ℚ)
    (hsp : g.spread = SpreadMethod.reflectSpread)
    (hd : 2 ≤ g.stops.length)
    (hsorted : List.Pairwise (fun a b => a.offset < b.offset) g.stops)
    (hrange : ∀ s ∈ g.stops, 0 ≤ s.offset ∧ s.offset ≤ 1)
    (hbyte : ∀ s ∈ g.stops, s.stopColor.ByteRep)
    (h0 : 0 ≤ t) (h2 : t ≤ 2) :
    (g.tColor t op).map NRGBA.rgb = (g.tColor (2 - t) op).map NRGBA.rgb := by
  rw [tColor_reflect_eq g t op hsp, tColor_reflect_eq g (2 - t) op hsp]
  rcases eq_or_lt_of_le h0 with h0' | h0'
  · rw [← h0']
    rw [show (2 : ℚ) - 0 = 2 from by norm_num]
    rw [posMod2_two, posMod2_eq_self 0 le_rfl (by norm_num)]
  · rcases eq_or_lt_of_le h2 with h2' | h2'
    · rw [h2']
      rw [show (2 : ℚ) - 2 = 0 from by norm_num]
      rw [posMod2_two, posMod2_eq_self 0 le_rfl (by norm_num)]
    · rw [posMod2_eq_self t (le_of_lt h0') h2',
        posMod2_eq_self (2 - t) (by linarith) (by linarith)]
      rcases lt_trichotomy t 1 with hlt | heq | hgt
      · rw [reflectLookup_eq_padLookup g.stops t op hrange (le_of_lt hlt)]
        rw [reflectLookup_rgb_eq_padLookup g.stops (2 - t) op hsorted hrange
          hbyte hd (by linarith) (by linarith)]
        rw [show (2 : ℚ) - (2 - t) = t from by ring]
      · rw [heq]
        rw [show (2 : ℚ) - 1 = 1 from by norm_num]
      · rw [reflectLookup_rgb_eq_padLookup g.stops t op hsorted hrange hbyte hd
          hgt h2']
        rw [reflectLookup_eq_padLookup g.stops (2 - t) op hrange (by linarith)]

/-- Witness for **C5** at the concrete strict two-stop Reflect gradient and
`t = 1/4`. -/
theorem tColor_reflect_symmetric_witness :
    (reflGradientW.tColor (1/4) 1).map NRGBA.rgb =
      (reflGradientW.tColor (2 - 1/4) 1).map NRGBA.rgb :=
  tColor_reflect_symmetric reflGradientW (1/4) 1 rfl (by decide)
    (by
      refine List.Pairwise.cons ?_ (List.pairwise_singleton _ _)
      intro b hb
      simp only [reflGradientW, List.mem_singleton] at hb
      subst hb
      norm_num)
    (by
      intro s hs
      simp only [reflGradientW, List.mem_cons, List.mem_singleton] at hs
      rcases hs with rfl | rfl | h
      · norm_num
      · norm_num
      · cases h)
    (by
      intro s hs
      simp only [reflGradientW, List.mem_cons, List.mem_singleton] at hs
      rcases hs with rfl | rfl | h
      · exact ⟨⟨255, by norm_num, rfl⟩, ⟨0, by norm_num, rfl⟩, ⟨0, by norm_num, rfl⟩⟩
      · exact ⟨⟨0, by norm_num, rfl⟩, ⟨0, by norm_num, rfl⟩, ⟨255, by norm_num, rfl⟩⟩
      · cases h)
    (by norm_num) (by norm_num)

/-- Counterexample for **C5** as stated: a Reflect gradient with two stops
at the same offset `1/2` (sorted non-strictly ascending) samples red at
`t = 1/2` but blue at `2 - 1/2 = 3/2`. -/
theorem reflect_sample_not_symmetric_with_equal_offsets :
    ¬ ((dupGradientW.tColor (1/2) 1).map NRGBA.rgb =
        (dupGradientW.tColor (2 - 1/2) 1).map NRGBA.rgb) := by
  have e1 : dupGradientW.tColor (1/2) 1 =
      some (ApplyOpacity ⟨65535, 0, 0, 65535⟩ (1 * 1)) := by
    rw [tColor_reflect_eq dupGradientW (1/2) 1 rfl,
      posMod2_eq_self (1/2) (by norm_num) (by norm_num)]
    rw [reflectLookup]
    norm_num [dupGradientW, List.takeWhile]
  have e2 : dupGradientW.tColor (2 - 1/2) 1 =
      some (ApplyOpacity ⟨0, 0, 65535, 65535⟩ (1 * 1)) := by
    rw [show (2 : ℚ) - 1/2 = 3/2 from by norm_num]
    rw [tColor_reflect_eq dupGradientW (3/2) 1 rfl,
      posMod2_eq_self (3/2) (by norm_num) (by norm_num)]
    rw [reflectLookup]
    norm_num [dupGradientW, List.takeWhile]
  rw [e1, e2]
  simp [ApplyOpacity, NRGBA.rgb]

end Oksvg

